import Mathlib

open Classical

-- Verification development for the simulation core of COMP3016-CW1
-- (top-down zombie shooter, SDL3).  The source file contains two
-- revisions of the program; the wave-based revision (the one with the
-- wave scheduler, the second half of the file) is embedded here.
-- Spatial quantities use exact real arithmetic in place of 32-bit
-- floats; C++ int fields are modelled by Int.  The std::mt19937
-- randomness consumed by spawn placement is abstracted as an explicit
-- per-frame input (the resolved spawn position), which is faithful for
-- every property below since none depends on the distribution of spawn
-- points.

-- ---------- Math (struct Vec2) ----------

structure Vec2 where
  x : ℝ
  y : ℝ

instance : Add Vec2 := ⟨fun a b => ⟨a.x + b.x, a.y + b.y⟩⟩

instance : Sub Vec2 := ⟨fun a b => ⟨a.x - b.x, a.y - b.y⟩⟩

instance : HMul Vec2 ℝ Vec2 := ⟨fun v s => ⟨v.x * s, v.y * s⟩⟩

@[simp] theorem Vec2.add_def (a b : Vec2) : a + b = ⟨a.x + b.x, a.y + b.y⟩ := rfl

@[simp] theorem Vec2.sub_def (a b : Vec2) : a - b = ⟨a.x - b.x, a.y - b.y⟩ := rfl

@[simp] theorem Vec2.mul_def (v : Vec2) (s : ℝ) : v * s = ⟨v.x * s, v.y * s⟩ := rfl

noncomputable def Vec2.len (v : Vec2) : ℝ := Real.sqrt (v.x * v.x + v.y * v.y)

noncomputable def Vec2.normalized (v : Vec2) : Vec2 :=
  if 0.0001 < v.len then ⟨v.x / v.len, v.y / v.len⟩ else ⟨0, 0⟩

-- ---------- Collision helper (Game::circle_hit) ----------

def circle_hit (a : Vec2) (ar : ℝ) (b : Vec2) (br : ℝ) : Prop :=
  (a.x - b.x) * (a.x - b.x) + (a.y - b.y) * (a.y - b.y) ≤ (ar + br) * (ar + br)

/-- C8: circle_hit holds iff the squared centre distance is at most the
squared sum of the radii, it is symmetric in its two circle arguments,
and two circles of radius 1 whose centres are exactly 2 apart (tangent)
count as overlapping. -/
theorem circle_hit_spec :
    (∀ (a : Vec2) (ar : ℝ) (b : Vec2) (br : ℝ),
        circle_hit a ar b br ↔
          (a.x - b.x) ^ 2 + (a.y - b.y) ^ 2 ≤ (ar + br) ^ 2) ∧
    (∀ (a : Vec2) (ar : ℝ) (b : Vec2) (br : ℝ),
        circle_hit a ar b br ↔ circle_hit b br a ar) ∧
    circle_hit ⟨0, 0⟩ 1 ⟨2, 0⟩ 1 := by
  refine ⟨?_, ?_, ?_⟩
  · intro a ar b br
    simp only [circle_hit, pow_two]
  · intro a ar b br
    unfold circle_hit
    rw [show (a.x - b.x) * (a.x - b.x) = (b.x - a.x) * (b.x - a.x) by ring,
        show (a.y - b.y) * (a.y - b.y) = (b.y - a.y) * (b.y - a.y) by ring,
        show (ar + br) * (ar + br) = (br + ar) * (br + ar) by ring]
  · norm_num [circle_hit]

/-- C9: normalizing a vector whose length is below the 1e-4 epsilon
yields the zero vector, a vector whose length is above the epsilon is
divided componentwise by its length, and normalizing (3,4) yields
(0.6, 0.8). -/
theorem normalized_spec :
    (∀ v : Vec2, v.len < 0.0001 → v.normalized = ⟨0, 0⟩) ∧
    (∀ v : Vec2, 0.0001 < v.len → v.normalized = ⟨v.x / v.len, v.y / v.len⟩) ∧
    (Vec2.mk 3 4).normalized = ⟨0.6, 0.8⟩ := by
  refine ⟨?_, ?_, ?_⟩
  · intro v h
    unfold Vec2.normalized
    rw [if_neg (not_lt.mpr h.le)]
  · intro v h
    unfold Vec2.normalized
    rw [if_pos h]
  · have hl : (Vec2.mk 3 4).len = 5 := by
      unfold Vec2.len
      rw [show ((Vec2.mk 3 4).x * (Vec2.mk 3 4).x + (Vec2.mk 3 4).y * (Vec2.mk 3 4).y : ℝ)
            = 5 ^ 2 by norm_num]
      exact Real.sqrt_sq (by norm_num)
    unfold Vec2.normalized
    rw [hl, if_pos (by norm_num)]
    norm_num

/-- Witness for C9: the zero vector is below the epsilon and normalizes
to the zero vector. -/
theorem normalized_spec_witness :
    (Vec2.mk 0 0).len < 0.0001 ∧ (Vec2.mk 0 0).normalized = ⟨0, 0⟩ := by
  have h : (Vec2.mk 0 0).len < 0.0001 := by
    unfold Vec2.len
    norm_num
  exact ⟨h, normalized_spec.1 _ h⟩

-- ---------- Entities (struct Bullet, struct Zombie, class Player) ----------

structure Bullet where
  pos : Vec2
  vel : Vec2
  radius : ℝ
  alive : Bool
  lifetime : ℝ
  age : ℝ

def mkBullet (p v : Vec2) : Bullet :=
  { pos := p, vel := v, radius := 4, alive := true, lifetime := 1.2, age := 0 }

-- Bullet::update: age += dt; if (age >= lifetime) alive = false; pos += vel * dt.
noncomputable def Bullet.update (dt : ℝ) (b : Bullet) : Bullet :=
  { b with age := b.age + dt,
           alive := if b.lifetime ≤ b.age + dt then false else b.alive,
           pos := b.pos + b.vel * dt }

structure Zombie where
  pos : Vec2
  vel : Vec2
  radius : ℝ
  alive : Bool
  speed : ℝ

def mkZombie (p : Vec2) (s : ℝ) : Zombie :=
  { pos := p, vel := ⟨0, 0⟩, radius := 14, alive := true, speed := s }

structure Player where
  pos : Vec2
  vel : Vec2
  radius : ℝ
  alive : Bool
  speed : ℝ
  hp : ℤ
  shootCooldown : ℝ
  shootTimer : ℝ
  aimDir : Vec2

-- Each WASD key contributes -1 or +1 on its axis (W up is negative y).
def keyAxis (neg pos : Bool) : ℝ :=
  (if neg = true then -1 else 0) + (if pos = true then 1 else 0)

-- Player::update_input: velocity from normalized key axes times speed,
-- aimDir unconditionally re-assigned from the pointer, shoot timer
-- decremented and floored at 0.
noncomputable def update_input (dt : ℝ) (kW kS kA kD : Bool) (mx my : ℝ)
    (p : Player) : Player :=
  { p with vel := (Vec2.mk (keyAxis kA kD) (keyAxis kW kS)).normalized * p.speed,
           aimDir := (Vec2.mk mx my - p.pos).normalized,
           shootTimer := max 0 (p.shootTimer - dt) }

/-- Amended C6: update_input always overwrites the aim direction with
normalized(pointer - player position); when that vector is degenerate
(length at most the 1e-4 epsilon) the aim direction becomes the zero
vector, not the previously held value. -/
theorem aim_update_spec (dt mx my : ℝ) (kW kS kA kD : Bool) (p : Player) :
    (update_input dt kW kS kA kD mx my p).aimDir = (Vec2.mk mx my - p.pos).normalized ∧
    ((Vec2.mk mx my - p.pos).len ≤ 0.0001 →
      (update_input dt kW kS kA kD mx my p).aimDir = ⟨0, 0⟩) := by
  refine ⟨rfl, ?_⟩
  intro h
  show (Vec2.mk mx my - p.pos).normalized = _
  unfold Vec2.normalized
  rw [if_neg (not_lt.mpr h)]

/-- Witness for the amended C6 at a concrete degenerate input. -/
theorem aim_update_spec_witness :
    (Vec2.mk 100 100 - (Player.mk ⟨100, 100⟩ ⟨0, 0⟩ 14 true 220 3 0.15 0 ⟨1, 0⟩).pos).len ≤ 0.0001 ∧
    (update_input 0 false false false false 100 100
        (Player.mk ⟨100, 100⟩ ⟨0, 0⟩ 14 true 220 3 0.15 0 ⟨1, 0⟩)).aimDir = ⟨0, 0⟩ := by
  have h : (Vec2.mk 100 100 - (Player.mk ⟨100, 100⟩ ⟨0, 0⟩ 14 true 220 3 0.15 0 ⟨1, 0⟩).pos).len
      ≤ 0.0001 := by
    simp only [Vec2.sub_def]
    unfold Vec2.len
    norm_num
  exact ⟨h, (aim_update_spec 0 100 100 false false false false _).2 h⟩

def pAim : Player := Player.mk ⟨100, 100⟩ ⟨0, 0⟩ 14 true 220 3 0.15 0 ⟨1, 0⟩

/-- Counterexample to C6 as stated: with the pointer exactly on the
player (degenerate difference vector), update_input sets the aim
direction to the zero vector instead of holding the previous value
(1,0). -/
theorem aim_not_held_cx :
    pAim.aimDir = ⟨1, 0⟩ ∧
    (update_input 0 false false false false 100 100 pAim).aimDir = ⟨0, 0⟩ ∧
    (update_input 0 false false false false 100 100 pAim).aimDir ≠ pAim.aimDir := by
  have h2 : (update_input 0 false false false false 100 100 pAim).aimDir = ⟨0, 0⟩ := by
    show (Vec2.mk 100 100 - pAim.pos).normalized = _
    simp only [pAim, Vec2.sub_def]
    unfold Vec2.normalized Vec2.len
    norm_num
  refine ⟨rfl, h2, ?_⟩
  rw [h2]
  show Vec2.mk 0 0 ≠ Vec2.mk 1 0
  intro h
  have := congrArg Vec2.x h
  norm_num at this

-- ---------- Weapon model (spec section 4.3) ----------

/-- Modelled from the spec: the weapon/ammo bookkeeping (three named
weapons with fireRate, bulletSpeed, bulletLife, spreadDeg, pelletCount
and an ammoCapacity where -1 means unlimited, spec section 4.3) belongs
to a revision of this program that is not included under src/; the
firing code that is present has no ammo counters.  This structure is
the spec's weapon value type. -/
structure Weapon where
  fireRate : ℚ
  bulletSpeed : ℚ
  bulletLife : ℚ
  spreadDeg : ℚ
  pelletCount : ℤ

/-- Modelled from the spec: the firing-relevant mutable state of the
player, a cooldown timer and the active weapon's remaining ammo
(-1 = unlimited). -/
structure AmmoState where
  cooldown : ℚ
  ammo : ℤ

/-- Modelled from the spec: try_shoot is a no-op if the cooldown is
positive or the remaining ammo is exactly 0; otherwise it resets the
cooldown to 1/fireRate, decrements the ammo if finite, and emits
pelletCount projectiles (the returned count). -/
def try_shoot (w : Weapon) (st : AmmoState) : AmmoState × ℤ :=
  if 0 < st.cooldown ∨ st.ammo = 0 then (st, 0)
  else ({ cooldown := 1 / w.fireRate,
          ammo := if 0 < st.ammo then st.ammo - 1 else st.ammo },
        w.pelletCount)

/-- C5: a fire attempt with remaining ammo exactly 0 emits zero
projectiles and leaves the state (in particular the cooldown timer)
unchanged; with finite positive ammo and an elapsed cooldown, firing
emits the weapon's pellet count, consumes exactly one ammo unit, and
resets the cooldown to 1/fireRate. -/
theorem try_shoot_spec (w : Weapon) (st : AmmoState) :
    (st.ammo = 0 → try_shoot w st = (st, 0)) ∧
    (st.cooldown ≤ 0 → 0 < st.ammo →
      (try_shoot w st).2 = w.pelletCount ∧
      (try_shoot w st).1.ammo = st.ammo - 1 ∧
      (try_shoot w st).1.cooldown = 1 / w.fireRate) := by
  constructor
  · intro h
    unfold try_shoot
    rw [if_pos (Or.inr h)]
  · intro hc ha
    unfold try_shoot
    rw [if_neg (by push_neg; exact ⟨hc, by omega⟩)]
    rw [if_pos ha]
    exact ⟨rfl, rfl, rfl⟩

/-- Witness for C5: a concrete weapon with 2 rounds left and an elapsed
cooldown fires its pellet count and drops to 1 round; with 0 rounds the
attempt is refused outright. -/
theorem try_shoot_spec_witness :
    ((AmmoState.mk 0 0).ammo = 0 ∧
      try_shoot (Weapon.mk 2 520 1.2 0 1) (AmmoState.mk 0 0) = (AmmoState.mk 0 0, 0)) ∧
    ((AmmoState.mk 0 2).cooldown ≤ 0 ∧ 0 < (AmmoState.mk 0 2).ammo ∧
      (try_shoot (Weapon.mk 2 520 1.2 0 1) (AmmoState.mk 0 2)).2 = 1 ∧
      (try_shoot (Weapon.mk 2 520 1.2 0 1) (AmmoState.mk 0 2)).1.ammo = 1) := by
  constructor
  · exact ⟨rfl, (try_shoot_spec (Weapon.mk 2 520 1.2 0 1) (AmmoState.mk 0 0)).1 rfl⟩
  · have h := (try_shoot_spec (Weapon.mk 2 520 1.2 0 1) (AmmoState.mk 0 2)).2
      (by norm_num) (by norm_num)
    exact ⟨by norm_num, by norm_num, h.1, by rw [h.2.1]; norm_num⟩

-- ---------- Game state (class Game, wave revision) ----------

structure GameState where
  width : ℝ
  height : ℝ
  player : Player
  zombies : List Zombie
  bullets : List Bullet
  running : Bool
  surviveTime : ℝ
  score : ℤ
  baseZombieSpeed : ℝ
  baseSpawnInterval : ℝ
  currentWave : ℤ
  totalThisWave : ℤ
  spawnedThisWave : ℤ
  killedThisWave : ℤ
  simultaneousCap : ℤ
  pendingToSpawn : ℤ
  zombieSpeed : ℝ
  spawnInterval : ℝ
  spawnTimer : ℝ
  inIntermission : Bool
  intermissionTimer : ℝ
  queuedShoot : Bool
  gameOverAnim : ℝ

-- Game::alive_zombies: count of zombies whose alive flag is set
-- (returned as a C++ int, hence Int here).
def aliveCount : List Zombie → ℤ
  | [] => 0
  | z :: zs => (if z.alive = true then 1 else 0) + aliveCount zs

def alive_zombies (s : GameState) : ℤ := aliveCount s.zombies

-- std::clamp(v, lo, hi)
noncomputable def clampR (v lo hi : ℝ) : ℝ :=
  if v < lo then lo else if hi < v then hi else v

-- Game::clamp_to_arena: both coordinates clamped into
-- [20, dimension - 20] independently.
noncomputable def clampVec (v : Vec2) (w h : ℝ) : Vec2 :=
  ⟨clampR v.x 20 (w - 20), clampR v.y 20 (h - 20)⟩

-- Game::start_wave: wave-curve initialisation.  std::pow(0.92f, wave-1)
-- is modelled with a natural exponent, faithful for wave >= 1.
noncomputable def start_wave (wave : ℤ) (s : GameState) : GameState :=
  { s with currentWave := wave,
           totalThisWave := 8 + (wave - 1) * 5,
           simultaneousCap := min (6 + (wave - 1) * 2) 40,
           spawnInterval := max 0.20 (s.baseSpawnInterval * 0.92 ^ (wave - 1).toNat),
           zombieSpeed := s.baseZombieSpeed * (1 + 0.06 * ((wave : ℝ) - 1)),
           spawnedThisWave := 0,
           killedThisWave := 0,
           pendingToSpawn := 8 + (wave - 1) * 5,
           spawnTimer := 0.25,
           inIntermission := false }

-- Frame stage 1: intermission countdown; an expired timer starts the
-- next wave (Game::update, intermission block).
noncomputable def stepIntermission (dt : ℝ) (s : GameState) : GameState :=
  if s.inIntermission = true then
    if s.intermissionTimer - dt ≤ 0 then
      start_wave (s.currentWave + 1) { s with intermissionTimer := s.intermissionTimer - dt }
    else
      { s with intermissionTimer := s.intermissionTimer - dt }
  else s

-- Frame stage 2: player input (Game::update calls Player::update_input).
noncomputable def stepInput (dt : ℝ) (kW kS kA kD : Bool) (mx my : ℝ)
    (s : GameState) : GameState :=
  { s with player := update_input dt kW kS kA kD mx my s.player }

-- Frame stage 3: queued shot.  The wave revision recomputes the firing
-- direction from the pointer; can_shoot is shootTimer <= 0 and
-- did_shoot resets the timer to the cooldown.  The queued flag is
-- always cleared.
noncomputable def stepShoot (mx my : ℝ) (s : GameState) : GameState :=
  if s.queuedShoot = true ∧ s.player.shootTimer ≤ 0 then
    { s with bullets := s.bullets ++
               [mkBullet (s.player.pos + (Vec2.mk mx my - s.player.pos).normalized * (18 : ℝ))
                         ((Vec2.mk mx my - s.player.pos).normalized * (520 : ℝ))],
             player := { s.player with shootTimer := s.player.shootCooldown },
             queuedShoot := false }
  else { s with queuedShoot := false }

-- Frame stage 4: spawn decision.  The timer is decremented by dt; while
-- the wave is active with pending spawns and an expired timer, a zombie
-- spawns if the live count is below the cap (timer reset to the spawn
-- interval), otherwise the timer is set to the 0.15 retry backoff.
noncomputable def stepSpawn (dt : ℝ) (spawnPos : Vec2) (s : GameState) : GameState :=
  if s.inIntermission = false ∧ 0 < s.pendingToSpawn ∧ s.spawnTimer - dt ≤ 0 then
    if alive_zombies s < s.simultaneousCap then
      { s with zombies := s.zombies ++ [mkZombie spawnPos s.zombieSpeed],
               pendingToSpawn := s.pendingToSpawn - 1,
               spawnedThisWave := s.spawnedThisWave + 1,
               spawnTimer := s.spawnInterval }
    else { s with spawnTimer := 0.15 }
  else { s with spawnTimer := s.spawnTimer - dt }

-- Zombie::steer_to followed by Entity::update and clamp_to_arena.
noncomputable def zombieStep (dt : ℝ) (target : Vec2) (w h : ℝ) (z : Zombie) : Zombie :=
  { z with vel := (target - z.pos).normalized * z.speed,
           pos := clampVec (z.pos + (target - z.pos).normalized * z.speed * dt) w h }

-- Frame stage 5: motion integration.  The player moves and is clamped
-- first; every zombie then steers towards the post-move player
-- position, moves and is clamped; bullets age and move.
noncomputable def stepMove (dt : ℝ) (s : GameState) : GameState :=
  { s with player := { s.player with pos := clampVec (s.player.pos + s.player.vel * dt) s.width s.height },
           zombies := s.zombies.map
             (zombieStep dt (clampVec (s.player.pos + s.player.vel * dt) s.width s.height) s.width s.height),
           bullets := s.bullets.map (Bullet.update dt) }

-- Result of one zombie scanning the bullet list (inner collision loop).
structure ZbOneRes where
  z : Zombie
  bullets : List Bullet
  score : ℤ
  killed : ℤ

-- Inner bullet loop for one zombie: a pair with both entities alive and
-- overlapping kills both, adds 10 score and one wave kill; a dead
-- zombie skips all later bullets.
noncomputable def zbOne (z : Zombie) (sc kl : ℤ) : List Bullet → ZbOneRes
  | [] => ⟨z, [], sc, kl⟩
  | b :: bs =>
    if z.alive = true ∧ b.alive = true ∧ circle_hit z.pos z.radius b.pos b.radius then
      let r := zbOne { z with alive := false } (sc + 10) (kl + 1) bs
      ⟨r.z, { b with alive := false } :: r.bullets, r.score, r.killed⟩
    else
      let r := zbOne z sc kl bs
      ⟨r.z, b :: r.bullets, r.score, r.killed⟩

structure ZbRes where
  zombies : List Zombie
  bullets : List Bullet
  score : ℤ
  killed : ℤ

-- Outer zombie loop of the bullets-vs-zombies pass.
noncomputable def zbPass (sc kl : ℤ) (bs : List Bullet) : List Zombie → ZbRes
  | [] => ⟨[], bs, sc, kl⟩
  | z :: zs =>
    let r1 := zbOne z sc kl bs
    let r2 := zbPass r1.score r1.killed r1.bullets zs
    ⟨r1.z :: r2.zombies, r2.bullets, r2.score, r2.killed⟩

structure ZpRes where
  zombies : List Zombie
  hp : ℤ
  running : Bool
  anim : ℝ

-- Zombies-vs-player pass: a live overlapping zombie dies, hp drops by
-- one, and hp <= 0 ends the run and arms the 2-second game-over fade.
noncomputable def zpPass (ppos : Vec2) (prad : ℝ) (hp : ℤ) (run : Bool) (anim : ℝ) :
    List Zombie → ZpRes
  | [] => ⟨[], hp, run, anim⟩
  | z :: zs =>
    if z.alive = true ∧ circle_hit z.pos z.radius ppos prad then
      let r := zpPass ppos prad (hp - 1) (if hp - 1 ≤ 0 then false else run)
        (if hp - 1 ≤ 0 then 2 else anim) zs
      ⟨{ z with alive := false } :: r.zombies, r.hp, r.running, r.anim⟩
    else
      let r := zpPass ppos prad hp run anim zs
      ⟨z :: r.zombies, r.hp, r.running, r.anim⟩

-- Frame stage 6: both collision passes, writing back the touched fields.
noncomputable def stepCollide (s : GameState) : GameState :=
  let r1 := zbPass s.score s.killedThisWave s.bullets s.zombies
  let r2 := zpPass s.player.pos s.player.radius s.player.hp s.running s.gameOverAnim r1.zombies
  { s with zombies := r2.zombies,
           bullets := r1.bullets,
           score := r1.score,
           killedThisWave := r1.killed,
           player := { s.player with hp := r2.hp },
           running := r2.running,
           gameOverAnim := r2.anim }

-- Frame stage 7: erase_dead on bullets and zombies.
def stepReap (s : GameState) : GameState :=
  { s with bullets := s.bullets.filter (fun b => b.alive),
           zombies := s.zombies.filter (fun z => z.alive) }

-- Frame stage 8: wave completion check; entering intermission arms the
-- 3-second timer.
noncomputable def stepWaveCheck (s : GameState) : GameState :=
  if s.inIntermission = false ∧ s.totalThisWave ≤ s.spawnedThisWave ∧
      s.totalThisWave ≤ s.killedThisWave ∧ alive_zombies s = 0 then
    { s with inIntermission := true, intermissionTimer := 3 }
  else s

-- Frame stage 9: survival clock, and the game-over fade decays while
-- the run is over (which inside Game::update can only be the frame in
-- which it just ended).
noncomputable def stepTime (dt : ℝ) (s : GameState) : GameState :=
  if s.running = false then
    { s with surviveTime := s.surviveTime + dt, gameOverAnim := max 0 (s.gameOverAnim - dt) }
  else
    { s with surviveTime := s.surviveTime + dt }

-- Game::update: early return when the run has ended, otherwise the
-- nine stages in source order.
noncomputable def update (dt : ℝ) (kW kS kA kD : Bool) (mx my : ℝ) (spawnPos : Vec2)
    (s : GameState) : GameState :=
  if s.running = true then
    stepTime dt (stepWaveCheck (stepReap (stepCollide (stepMove dt
      (stepSpawn dt spawnPos (stepShoot mx my (stepInput dt kW kS kA kD mx my
        (stepIntermission dt s))))))))
  else s

-- One frame's external input: elapsed time, key flags, pointer
-- position, and the resolved random spawn position.
structure FrameInput where
  dt : ℝ
  kW : Bool
  kS : Bool
  kA : Bool
  kD : Bool
  mx : ℝ
  my : ℝ
  spawnPos : Vec2

noncomputable def runFrames : List FrameInput → GameState → GameState
  | [], s => s
  | i :: is, s => runFrames is (update i.dt i.kW i.kS i.kA i.kD i.mx i.my i.spawnPos s)

-- ---------- Scheduler invariants ----------

-- Counter bookkeeping of the wave scheduler: the spawned and pending
-- counters partition the wave quota, pending never goes negative, and
-- the wave number is at least 1.
def WaveInv (s : GameState) : Prop :=
  s.spawnedThisWave + s.pendingToSpawn = s.totalThisWave ∧
  0 ≤ s.pendingToSpawn ∧ 1 ≤ s.currentWave

theorem waveInv_start_wave (w : ℤ) (s : GameState) (h : 1 ≤ w) :
    WaveInv (start_wave w s) := by
  simp only [WaveInv, start_wave]
  omega

theorem waveInv_stepIntermission (dt : ℝ) (s : GameState) (h : WaveInv s) :
    WaveInv (stepIntermission dt s) := by
  unfold stepIntermission
  split
  · split
    · have h3 := h.2.2
      refine waveInv_start_wave _ _ ?_
      show 1 ≤ s.currentWave + 1
      omega
    · exact h
  · exact h

theorem waveInv_stepInput (dt : ℝ) (kW kS kA kD : Bool) (mx my : ℝ) (s : GameState)
    (h : WaveInv s) : WaveInv (stepInput dt kW kS kA kD mx my s) := h

theorem waveInv_stepShoot (mx my : ℝ) (s : GameState) (h : WaveInv s) :
    WaveInv (stepShoot mx my s) := by
  unfold stepShoot
  split
  · exact h
  · exact h

theorem waveInv_stepSpawn (dt : ℝ) (sp : Vec2) (s : GameState) (h : WaveInv s) :
    WaveInv (stepSpawn dt sp s) := by
  obtain ⟨h1, h2, h3⟩ := h
  unfold stepSpawn
  split
  next hc =>
    obtain ⟨-, hp, -⟩ := hc
    split
    · exact ⟨by simp; omega, by simp; omega, h3⟩
    · exact ⟨h1, h2, h3⟩
  next => exact ⟨h1, h2, h3⟩

theorem waveInv_stepMove (dt : ℝ) (s : GameState) (h : WaveInv s) :
    WaveInv (stepMove dt s) := h

theorem waveInv_stepCollide (s : GameState) (h : WaveInv s) :
    WaveInv (stepCollide s) := h

theorem waveInv_stepReap (s : GameState) (h : WaveInv s) :
    WaveInv (stepReap s) := h

theorem waveInv_stepWaveCheck (s : GameState) (h : WaveInv s) :
    WaveInv (stepWaveCheck s) := by
  unfold stepWaveCheck
  split
  · exact h
  · exact h

theorem waveInv_stepTime (dt : ℝ) (s : GameState) (h : WaveInv s) :
    WaveInv (stepTime dt s) := by
  unfold stepTime
  split
  · exact h
  · exact h

theorem waveInv_update (dt : ℝ) (kW kS kA kD : Bool) (mx my : ℝ) (sp : Vec2)
    (s : GameState) (h : WaveInv s) :
    WaveInv (update dt kW kS kA kD mx my sp s) := by
  unfold update
  split
  · exact waveInv_stepTime _ _ (waveInv_stepWaveCheck _ (waveInv_stepReap _
      (waveInv_stepCollide _ (waveInv_stepMove _ _ (waveInv_stepSpawn _ _ _
        (waveInv_stepShoot _ _ _ (waveInv_stepInput _ _ _ _ _ _ _ _
          (waveInv_stepIntermission _ _ h))))))))
  · exact h

-- A concrete game state with the documented default tuning
-- (maxZombies 20 is not used by the wave revision; base speed 90, base
-- interval 1.0), player at the centre of the 960x540 arena.
noncomputable def cBase : GameState :=
  { width := 960, height := 540,
    player := Player.mk ⟨480, 270⟩ ⟨0, 0⟩ 14 true 220 3 0.15 0 ⟨1, 0⟩,
    zombies := [], bullets := [], running := true, surviveTime := 0, score := 0,
    baseZombieSpeed := 90, baseSpawnInterval := 1,
    currentWave := 1, totalThisWave := 8, spawnedThisWave := 0, killedThisWave := 0,
    simultaneousCap := 6, pendingToSpawn := 8, zombieSpeed := 90, spawnInterval := 1,
    spawnTimer := 0.25, inIntermission := false, intermissionTimer := 0,
    queuedShoot := false, gameOverAnim := 0 }

/-- C2: start_wave(N) for N >= 1 sets totalEnemiesThisWave = 8+5(N-1),
simultaneousCap = min(6+2(N-1), 40), spawnInterval =
max(0.20, baseInterval * 0.92^(N-1)), enemySpeed =
baseSpeed * (1+0.06(N-1)), zeroes the spawned and killed counters, sets
pendingToSpawn to the wave quota, and sets spawnTimer to 0.25. -/
theorem start_wave_spec (w : ℤ) (s : GameState) (h : 1 ≤ w) :
    (start_wave w s).totalThisWave = 8 + 5 * (w - 1) ∧
    (start_wave w s).simultaneousCap = min (6 + 2 * (w - 1)) 40 ∧
    (start_wave w s).spawnInterval = max 0.20 (s.baseSpawnInterval * 0.92 ^ (w - 1).toNat) ∧
    (start_wave w s).zombieSpeed = s.baseZombieSpeed * (1 + 0.06 * ((w : ℝ) - 1)) ∧
    (start_wave w s).spawnedThisWave = 0 ∧
    (start_wave w s).killedThisWave = 0 ∧
    (start_wave w s).pendingToSpawn = (start_wave w s).totalThisWave ∧
    (start_wave w s).spawnTimer = 0.25 := by
  refine ⟨?_, ?_, rfl, rfl, rfl, rfl, rfl, rfl⟩
  · simp only [start_wave]
    omega
  · simp only [start_wave]
    omega

/-- Witness for C2: with the default base interval 1.0, wave 5 gets
spawnInterval = max(0.20, 0.92^4) = 0.71639296 (the spec's 0.716
example, exactly). -/
theorem start_wave_spec_witness :
    (1 : ℤ) ≤ 5 ∧ (start_wave 5 cBase).spawnInterval = 0.71639296 := by
  refine ⟨by norm_num, ?_⟩
  have h := (start_wave_spec 5 cBase (by norm_num)).2.2.1
  rw [h]
  rw [show ((5 : ℤ) - 1).toNat = 4 by decide]
  rw [show cBase.baseSpawnInterval = 1 from rfl]
  rw [max_eq_right (by norm_num)]
  norm_num

/-- C7: the counter bookkeeping WaveInv (spawned + pending = total,
pending nonnegative, wave number at least 1) is established by
start_wave for every wave N >= 1 and preserved by every frame update;
it entails spawnedThisWave <= totalEnemiesThisWave; and the per-frame
spawn decision spawns nothing (and leaves the spawned counter alone)
when pendingToSpawn is not positive. -/
theorem wave_counter_invariant :
    (∀ (w : ℤ) (s : GameState), 1 ≤ w → WaveInv (start_wave w s)) ∧
    (∀ (dt : ℝ) (kW kS kA kD : Bool) (mx my : ℝ) (sp : Vec2) (s : GameState),
      WaveInv s → WaveInv (update dt kW kS kA kD mx my sp s)) ∧
    (∀ s : GameState, WaveInv s → s.spawnedThisWave ≤ s.totalThisWave) ∧
    (∀ (dt : ℝ) (sp : Vec2) (s : GameState), s.pendingToSpawn ≤ 0 →
      (stepSpawn dt sp s).zombies = s.zombies ∧
      (stepSpawn dt sp s).spawnedThisWave = s.spawnedThisWave) := by
  refine ⟨waveInv_start_wave, waveInv_update, ?_, ?_⟩
  · intro s h
    obtain ⟨h1, h2, h3⟩ := h
    omega
  · intro dt sp s h
    unfold stepSpawn
    rw [if_neg (fun hc => absurd hc.2.1 (by omega))]
    exact ⟨rfl, rfl⟩

/-- Witness for C7 at wave 1 from the default state. -/
theorem wave_counter_invariant_witness :
    (1 : ℤ) ≤ 1 ∧ WaveInv (start_wave 1 cBase) ∧
    (start_wave 1 cBase).spawnedThisWave ≤ (start_wave 1 cBase).totalThisWave := by
  have h := wave_counter_invariant.1 1 cBase (by norm_num)
  exact ⟨by norm_num, h, wave_counter_invariant.2.2.1 _ h⟩

-- ---------- Collision pass lemmas ----------

-- The effect of the zombies-vs-player loop on one zombie.
noncomputable def killIf (ppos : Vec2) (prad : ℝ) (z : Zombie) : Zombie :=
  if z.alive = true ∧ circle_hit z.pos z.radius ppos prad then { z with alive := false } else z

-- Number of live zombies overlapping the player, i.e. damage ticks of
-- one zombies-vs-player pass.
noncomputable def contactCount (ppos : Vec2) (prad : ℝ) : List Zombie → ℤ
  | [] => 0
  | z :: zs =>
    (if z.alive = true ∧ circle_hit z.pos z.radius ppos prad then 1 else 0) +
      contactCount ppos prad zs

theorem contactCount_nonneg (ppos : Vec2) (prad : ℝ) (zs : List Zombie) :
    0 ≤ contactCount ppos prad zs := by
  induction zs with
  | nil => simp [contactCount]
  | cons z zs ih =>
    simp only [contactCount]
    split <;> omega

theorem zpPass_hp_eq (ppos : Vec2) (prad : ℝ) (hp : ℤ) (run : Bool) (anim : ℝ)
    (zs : List Zombie) :
    (zpPass ppos prad hp run anim zs).hp = hp - contactCount ppos prad zs := by
  induction zs generalizing hp run anim with
  | nil => simp [zpPass, contactCount]
  | cons z zs ih =>
    by_cases hc : z.alive = true ∧ circle_hit z.pos z.radius ppos prad
    · simp only [zpPass, contactCount, if_pos hc]
      rw [ih]
      ring
    · simp only [zpPass, contactCount, if_neg hc]
      rw [ih]
      ring

theorem zpPass_zombies_eq (ppos : Vec2) (prad : ℝ) (hp : ℤ) (run : Bool) (anim : ℝ)
    (zs : List Zombie) :
    (zpPass ppos prad hp run anim zs).zombies = zs.map (killIf ppos prad) := by
  induction zs generalizing hp run anim with
  | nil => simp [zpPass]
  | cons z zs ih =>
    by_cases hc : z.alive = true ∧ circle_hit z.pos z.radius ppos prad
    · simp only [zpPass, List.map, killIf, if_pos hc]
      rw [ih]
    · simp only [zpPass, List.map, killIf, if_neg hc]
      rw [ih]

theorem zpPass_hp_le (ppos : Vec2) (prad : ℝ) (hp : ℤ) (run : Bool) (anim : ℝ)
    (zs : List Zombie) : (zpPass ppos prad hp run anim zs).hp ≤ hp := by
  rw [zpPass_hp_eq]
  have := contactCount_nonneg ppos prad zs
  omega

theorem zpPass_run_mono (ppos : Vec2) (prad : ℝ) (hp : ℤ) (run : Bool) (anim : ℝ)
    (zs : List Zombie) : (zpPass ppos prad hp run anim zs).running = true → run = true := by
  induction zs generalizing hp run anim with
  | nil => exact id
  | cons z zs ih =>
    by_cases hc : z.alive = true ∧ circle_hit z.pos z.radius ppos prad
    · simp only [zpPass, if_pos hc]
      intro h
      have h2 := ih _ _ _ h
      by_cases hh : hp - 1 ≤ 0
      · rw [if_pos hh] at h2
        exact absurd h2 (by simp)
      · rwa [if_neg hh] at h2
    · simp only [zpPass, if_neg hc]
      exact ih _ _ _

theorem zpPass_death (ppos : Vec2) (prad : ℝ) (hp : ℤ) (run : Bool) (anim : ℝ)
    (zs : List Zombie) :
    (zpPass ppos prad hp run anim zs).hp ≤ 0 → (zpPass ppos prad hp run anim zs).hp < hp →
    (zpPass ppos prad hp run anim zs).running = false := by
  induction zs generalizing hp run anim with
  | nil =>
    intro h1 h2
    simp only [zpPass] at h2
    exact absurd h2 (lt_irrefl hp)
  | cons z zs ih =>
    by_cases hc : z.alive = true ∧ circle_hit z.pos z.radius ppos prad
    · simp only [zpPass, if_pos hc]
      intro h1 h2
      by_cases hlt : (zpPass ppos prad (hp - 1) (if hp - 1 ≤ 0 then false else run)
          (if hp - 1 ≤ 0 then 2 else anim) zs).hp < hp - 1
      · exact ih _ _ _ h1 hlt
      · have hle := zpPass_hp_le ppos prad (hp - 1) (if hp - 1 ≤ 0 then false else run)
          (if hp - 1 ≤ 0 then 2 else anim) zs
        have heq := le_antisymm hle (not_lt.mp hlt)
        have hh : hp - 1 ≤ 0 := by omega
        cases hrn : (zpPass ppos prad (hp - 1) (if hp - 1 ≤ 0 then false else run)
            (if hp - 1 ≤ 0 then 2 else anim) zs).running
        · rfl
        · have hmono := zpPass_run_mono _ _ _ _ _ _ hrn
          rw [if_pos hh] at hmono
          exact absurd hmono (by simp)
    · simp only [zpPass, if_neg hc]
      intro h1 h2
      exact ih _ _ _ h1 h2

/-- Amended C3: on enemy-player overlap the code applies one damage
tick per overlapping live enemy with no damage-cooldown gating, and the
contacted enemy is marked dead (it does not survive the contact and is
not pushed away): zpPass subtracts the number of live overlapping
enemies from hp and kills exactly those enemies, leaving their
positions unchanged. -/
theorem contact_damage_spec (ppos : Vec2) (prad : ℝ) (hp : ℤ) (run : Bool) (anim : ℝ)
    (zs : List Zombie) :
    (zpPass ppos prad hp run anim zs).hp = hp - contactCount ppos prad zs ∧
    (zpPass ppos prad hp run anim zs).zombies = zs.map (killIf ppos prad) :=
  ⟨zpPass_hp_eq ppos prad hp run anim zs, zpPass_zombies_eq ppos prad hp run anim zs⟩

/-- Counterexample to C3 as stated: two live enemies overlapping the
player in the same instant (0 seconds apart, hence within any 0.6s
cooldown window) each decrement HP - 3 drops to 1, a second decrement
despite the first being 0 seconds earlier - and both contacted enemies
are dead rather than surviving the contact. -/
theorem contact_no_iframes_cx :
    (zpPass ⟨480, 270⟩ 14 3 true 0 [mkZombie ⟨480, 270⟩ 90, mkZombie ⟨480, 270⟩ 90]).hp = 1 ∧
    aliveCount (zpPass ⟨480, 270⟩ 14 3 true 0
      [mkZombie ⟨480, 270⟩ 90, mkZombie ⟨480, 270⟩ 90]).zombies = 0 := by
  have hhit : circle_hit (mkZombie ⟨480, 270⟩ 90).pos (mkZombie ⟨480, 270⟩ 90).radius
      ⟨480, 270⟩ 14 := by
    norm_num [circle_hit, mkZombie]
  have hcond : (mkZombie ⟨480, 270⟩ 90).alive = true ∧
      circle_hit (mkZombie ⟨480, 270⟩ 90).pos (mkZombie ⟨480, 270⟩ 90).radius
        ⟨480, 270⟩ 14 := ⟨rfl, hhit⟩
  constructor
  · simp only [zpPass, if_pos hcond]
    norm_num
  · simp only [zpPass, if_pos hcond, aliveCount]
    norm_num

-- ---------- Game-over behaviour (C4) ----------

-- The base state after the run has ended: hp exhausted, run flag down,
-- game-over fade armed at its initial 2.0.
noncomputable def cDead : GameState :=
  { cBase with running := false, gameOverAnim := 2,
               player := Player.mk ⟨480, 270⟩ ⟨0, 0⟩ 14 true 220 0 0.15 0 ⟨1, 0⟩ }

/-- Amended C4: once the run-alive flag is false every subsequent
Game::update invocation is a complete no-op (the whole state, the
game-over overlay timer included, is left unchanged); the flag can
never return to true; and a zombies-vs-player pass that brings hp to 0
or below (strictly decreasing it) clears the flag. -/
theorem gameover_noop_spec (dt mx my : ℝ) (kW kS kA kD : Bool) (sp : Vec2) (s : GameState) :
    (s.running = false → update dt kW kS kA kD mx my sp s = s) ∧
    ((update dt kW kS kA kD mx my sp s).running = true → s.running = true) ∧
    (∀ (ppos : Vec2) (prad : ℝ) (hp : ℤ) (run : Bool) (anim : ℝ) (zs : List Zombie),
      (zpPass ppos prad hp run anim zs).hp ≤ 0 →
      (zpPass ppos prad hp run anim zs).hp < hp →
      (zpPass ppos prad hp run anim zs).running = false) := by
  have h1 : s.running = false → update dt kW kS kA kD mx my sp s = s := by
    intro h
    unfold update
    rw [if_neg (by rw [h]; simp)]
  refine ⟨h1, ?_, zpPass_death⟩
  intro h
  cases hr : s.running
  · rw [h1 hr] at h
    rw [hr] at h
    exact h
  · rfl

/-- Witness for the amended C4: a concrete ended run is left verbatim
unchanged by an update with dt = 1. -/
theorem gameover_noop_spec_witness :
    cDead.running = false ∧ update 1 false false false false 0 0 ⟨0, 0⟩ cDead = cDead :=
  ⟨rfl, (gameover_noop_spec 1 0 0 false false false false ⟨0, 0⟩ cDead).1 rfl⟩

/-- Counterexample to C4 as stated: after the run has ended, a further
update invocation with dt = 1 does NOT decay the cosmetic game-over
overlay timer - the state (timer still 2, not max(0, 2-1) = 1) is
returned untouched because Game::update returns before reaching the
decay statement. -/
theorem dead_frame_no_decay_cx :
    update 1 false false false false 0 0 ⟨0, 0⟩ cDead = cDead ∧
    cDead.gameOverAnim = 2 ∧
    (update 1 false false false false 0 0 ⟨0, 0⟩ cDead).gameOverAnim ≠
      max 0 (cDead.gameOverAnim - 1) := by
  have h : update 1 false false false false 0 0 ⟨0, 0⟩ cDead = cDead := by
    unfold update
    rw [if_neg (by simp [cDead])]
  refine ⟨h, rfl, ?_⟩
  rw [h]
  rw [show cDead.gameOverAnim = 2 from rfl]
  rw [max_eq_right (by norm_num)]
  norm_num

-- ---------- Per-stage projection lemmas ----------

@[simp] theorem stepInput_inInt (dt : ℝ) (kW kS kA kD : Bool) (mx my : ℝ) (s : GameState) :
    (stepInput dt kW kS kA kD mx my s).inIntermission = s.inIntermission := rfl

@[simp] theorem stepInput_intTimer (dt : ℝ) (kW kS kA kD : Bool) (mx my : ℝ) (s : GameState) :
    (stepInput dt kW kS kA kD mx my s).intermissionTimer = s.intermissionTimer := rfl

@[simp] theorem stepInput_cw (dt : ℝ) (kW kS kA kD : Bool) (mx my : ℝ) (s : GameState) :
    (stepInput dt kW kS kA kD mx my s).currentWave = s.currentWave := rfl

@[simp] theorem stepInput_total (dt : ℝ) (kW kS kA kD : Bool) (mx my : ℝ) (s : GameState) :
    (stepInput dt kW kS kA kD mx my s).totalThisWave = s.totalThisWave := rfl

@[simp] theorem stepInput_spawned (dt : ℝ) (kW kS kA kD : Bool) (mx my : ℝ) (s : GameState) :
    (stepInput dt kW kS kA kD mx my s).spawnedThisWave = s.spawnedThisWave := rfl

@[simp] theorem stepInput_pending (dt : ℝ) (kW kS kA kD : Bool) (mx my : ℝ) (s : GameState) :
    (stepInput dt kW kS kA kD mx my s).pendingToSpawn = s.pendingToSpawn := rfl

@[simp] theorem stepInput_killed (dt : ℝ) (kW kS kA kD : Bool) (mx my : ℝ) (s : GameState) :
    (stepInput dt kW kS kA kD mx my s).killedThisWave = s.killedThisWave := rfl

@[simp] theorem stepInput_score (dt : ℝ) (kW kS kA kD : Bool) (mx my : ℝ) (s : GameState) :
    (stepInput dt kW kS kA kD mx my s).score = s.score := rfl

@[simp] theorem stepInput_running (dt : ℝ) (kW kS kA kD : Bool) (mx my : ℝ) (s : GameState) :
    (stepInput dt kW kS kA kD mx my s).running = s.running := rfl

@[simp] theorem stepInput_anim (dt : ℝ) (kW kS kA kD : Bool) (mx my : ℝ) (s : GameState) :
    (stepInput dt kW kS kA kD mx my s).gameOverAnim = s.gameOverAnim := rfl

@[simp] theorem stepInput_zombies (dt : ℝ) (kW kS kA kD : Bool) (mx my : ℝ) (s : GameState) :
    (stepInput dt kW kS kA kD mx my s).zombies = s.zombies := rfl

@[simp] theorem stepInput_bullets (dt : ℝ) (kW kS kA kD : Bool) (mx my : ℝ) (s : GameState) :
    (stepInput dt kW kS kA kD mx my s).bullets = s.bullets := rfl

@[simp] theorem stepInput_hp (dt : ℝ) (kW kS kA kD : Bool) (mx my : ℝ) (s : GameState) :
    (stepInput dt kW kS kA kD mx my s).player.hp = s.player.hp := rfl

@[simp] theorem stepInput_ppos (dt : ℝ) (kW kS kA kD : Bool) (mx my : ℝ) (s : GameState) :
    (stepInput dt kW kS kA kD mx my s).player.pos = s.player.pos := rfl

@[simp] theorem stepInput_prad (dt : ℝ) (kW kS kA kD : Bool) (mx my : ℝ) (s : GameState) :
    (stepInput dt kW kS kA kD mx my s).player.radius = s.player.radius := rfl

@[simp] theorem stepShoot_inInt (mx my : ℝ) (s : GameState) :
    (stepShoot mx my s).inIntermission = s.inIntermission := by
  unfold stepShoot
  split <;> rfl

@[simp] theorem stepShoot_intTimer (mx my : ℝ) (s : GameState) :
    (stepShoot mx my s).intermissionTimer = s.intermissionTimer := by
  unfold stepShoot
  split <;> rfl

@[simp] theorem stepShoot_cw (mx my : ℝ) (s : GameState) :
    (stepShoot mx my s).currentWave = s.currentWave := by
  unfold stepShoot
  split <;> rfl

@[simp] theorem stepShoot_total (mx my : ℝ) (s : GameState) :
    (stepShoot mx my s).totalThisWave = s.totalThisWave := by
  unfold stepShoot
  split <;> rfl

@[simp] theorem stepShoot_spawned (mx my : ℝ) (s : GameState) :
    (stepShoot mx my s).spawnedThisWave = s.spawnedThisWave := by
  unfold stepShoot
  split <;> rfl

@[simp] theorem stepShoot_pending (mx my : ℝ) (s : GameState) :
    (stepShoot mx my s).pendingToSpawn = s.pendingToSpawn := by
  unfold stepShoot
  split <;> rfl

@[simp] theorem stepShoot_killed (mx my : ℝ) (s : GameState) :
    (stepShoot mx my s).killedThisWave = s.killedThisWave := by
  unfold stepShoot
  split <;> rfl

@[simp] theorem stepShoot_score (mx my : ℝ) (s : GameState) :
    (stepShoot mx my s).score = s.score := by
  unfold stepShoot
  split <;> rfl

@[simp] theorem stepShoot_running (mx my : ℝ) (s : GameState) :
    (stepShoot mx my s).running = s.running := by
  unfold stepShoot
  split <;> rfl

@[simp] theorem stepShoot_anim (mx my : ℝ) (s : GameState) :
    (stepShoot mx my s).gameOverAnim = s.gameOverAnim := by
  unfold stepShoot
  split <;> rfl

@[simp] theorem stepShoot_zombies (mx my : ℝ) (s : GameState) :
    (stepShoot mx my s).zombies = s.zombies := by
  unfold stepShoot
  split <;> rfl

@[simp] theorem stepShoot_hp (mx my : ℝ) (s : GameState) :
    (stepShoot mx my s).player.hp = s.player.hp := by
  unfold stepShoot
  split <;> rfl

@[simp] theorem stepShoot_ppos (mx my : ℝ) (s : GameState) :
    (stepShoot mx my s).player.pos = s.player.pos := by
  unfold stepShoot
  split <;> rfl

@[simp] theorem stepShoot_prad (mx my : ℝ) (s : GameState) :
    (stepShoot mx my s).player.radius = s.player.radius := by
  unfold stepShoot
  split <;> rfl

@[simp] theorem stepSpawn_inInt (dt : ℝ) (sp : Vec2) (s : GameState) :
    (stepSpawn dt sp s).inIntermission = s.inIntermission := by
  unfold stepSpawn
  split
  · split <;> rfl
  · rfl

@[simp] theorem stepSpawn_intTimer (dt : ℝ) (sp : Vec2) (s : GameState) :
    (stepSpawn dt sp s).intermissionTimer = s.intermissionTimer := by
  unfold stepSpawn
  split
  · split <;> rfl
  · rfl

@[simp] theorem stepSpawn_cw (dt : ℝ) (sp : Vec2) (s : GameState) :
    (stepSpawn dt sp s).currentWave = s.currentWave := by
  unfold stepSpawn
  split
  · split <;> rfl
  · rfl

@[simp] theorem stepSpawn_total (dt : ℝ) (sp : Vec2) (s : GameState) :
    (stepSpawn dt sp s).totalThisWave = s.totalThisWave := by
  unfold stepSpawn
  split
  · split <;> rfl
  · rfl

@[simp] theorem stepSpawn_killed (dt : ℝ) (sp : Vec2) (s : GameState) :
    (stepSpawn dt sp s).killedThisWave = s.killedThisWave := by
  unfold stepSpawn
  split
  · split <;> rfl
  · rfl

@[simp] theorem stepSpawn_score (dt : ℝ) (sp : Vec2) (s : GameState) :
    (stepSpawn dt sp s).score = s.score := by
  unfold stepSpawn
  split
  · split <;> rfl
  · rfl

@[simp] theorem stepSpawn_running (dt : ℝ) (sp : Vec2) (s : GameState) :
    (stepSpawn dt sp s).running = s.running := by
  unfold stepSpawn
  split
  · split <;> rfl
  · rfl

@[simp] theorem stepSpawn_anim (dt : ℝ) (sp : Vec2) (s : GameState) :
    (stepSpawn dt sp s).gameOverAnim = s.gameOverAnim := by
  unfold stepSpawn
  split
  · split <;> rfl
  · rfl

@[simp] theorem stepSpawn_bullets (dt : ℝ) (sp : Vec2) (s : GameState) :
    (stepSpawn dt sp s).bullets = s.bullets := by
  unfold stepSpawn
  split
  · split <;> rfl
  · rfl

@[simp] theorem stepSpawn_player (dt : ℝ) (sp : Vec2) (s : GameState) :
    (stepSpawn dt sp s).player = s.player := by
  unfold stepSpawn
  split
  · split <;> rfl
  · rfl

@[simp] theorem stepMove_inInt (dt : ℝ) (s : GameState) :
    (stepMove dt s).inIntermission = s.inIntermission := rfl

@[simp] theorem stepMove_intTimer (dt : ℝ) (s : GameState) :
    (stepMove dt s).intermissionTimer = s.intermissionTimer := rfl

@[simp] theorem stepMove_cw (dt : ℝ) (s : GameState) :
    (stepMove dt s).currentWave = s.currentWave := rfl

@[simp] theorem stepMove_total (dt : ℝ) (s : GameState) :
    (stepMove dt s).totalThisWave = s.totalThisWave := rfl

@[simp] theorem stepMove_spawned (dt : ℝ) (s : GameState) :
    (stepMove dt s).spawnedThisWave = s.spawnedThisWave := rfl

@[simp] theorem stepMove_pending (dt : ℝ) (s : GameState) :
    (stepMove dt s).pendingToSpawn = s.pendingToSpawn := rfl

@[simp] theorem stepMove_killed (dt : ℝ) (s : GameState) :
    (stepMove dt s).killedThisWave = s.killedThisWave := rfl

@[simp] theorem stepMove_score (dt : ℝ) (s : GameState) :
    (stepMove dt s).score = s.score := rfl

@[simp] theorem stepMove_running (dt : ℝ) (s : GameState) :
    (stepMove dt s).running = s.running := rfl

@[simp] theorem stepMove_anim (dt : ℝ) (s : GameState) :
    (stepMove dt s).gameOverAnim = s.gameOverAnim := rfl

@[simp] theorem stepMove_hp (dt : ℝ) (s : GameState) :
    (stepMove dt s).player.hp = s.player.hp := rfl

@[simp] theorem stepMove_prad (dt : ℝ) (s : GameState) :
    (stepMove dt s).player.radius = s.player.radius := rfl

@[simp] theorem stepCollide_inInt (s : GameState) :
    (stepCollide s).inIntermission = s.inIntermission := rfl

@[simp] theorem stepCollide_intTimer (s : GameState) :
    (stepCollide s).intermissionTimer = s.intermissionTimer := rfl

@[simp] theorem stepCollide_cw (s : GameState) :
    (stepCollide s).currentWave = s.currentWave := rfl

@[simp] theorem stepCollide_total (s : GameState) :
    (stepCollide s).totalThisWave = s.totalThisWave := rfl

@[simp] theorem stepCollide_spawned (s : GameState) :
    (stepCollide s).spawnedThisWave = s.spawnedThisWave := rfl

@[simp] theorem stepCollide_pending (s : GameState) :
    (stepCollide s).pendingToSpawn = s.pendingToSpawn := rfl

@[simp] theorem stepReap_inInt (s : GameState) :
    (stepReap s).inIntermission = s.inIntermission := rfl

@[simp] theorem stepReap_intTimer (s : GameState) :
    (stepReap s).intermissionTimer = s.intermissionTimer := rfl

@[simp] theorem stepReap_cw (s : GameState) :
    (stepReap s).currentWave = s.currentWave := rfl

@[simp] theorem stepReap_total (s : GameState) :
    (stepReap s).totalThisWave = s.totalThisWave := rfl

@[simp] theorem stepReap_spawned (s : GameState) :
    (stepReap s).spawnedThisWave = s.spawnedThisWave := rfl

@[simp] theorem stepReap_pending (s : GameState) :
    (stepReap s).pendingToSpawn = s.pendingToSpawn := rfl

@[simp] theorem stepReap_killed (s : GameState) :
    (stepReap s).killedThisWave = s.killedThisWave := rfl

@[simp] theorem stepReap_score (s : GameState) :
    (stepReap s).score = s.score := rfl

@[simp] theorem stepReap_running (s : GameState) :
    (stepReap s).running = s.running := rfl

@[simp] theorem stepReap_anim (s : GameState) :
    (stepReap s).gameOverAnim = s.gameOverAnim := rfl

@[simp] theorem stepReap_hp (s : GameState) :
    (stepReap s).player.hp = s.player.hp := rfl

@[simp] theorem stepWaveCheck_cw (s : GameState) :
    (stepWaveCheck s).currentWave = s.currentWave := by
  unfold stepWaveCheck
  split <;> rfl

@[simp] theorem stepWaveCheck_total (s : GameState) :
    (stepWaveCheck s).totalThisWave = s.totalThisWave := by
  unfold stepWaveCheck
  split <;> rfl

@[simp] theorem stepWaveCheck_spawned (s : GameState) :
    (stepWaveCheck s).spawnedThisWave = s.spawnedThisWave := by
  unfold stepWaveCheck
  split <;> rfl

@[simp] theorem stepWaveCheck_pending (s : GameState) :
    (stepWaveCheck s).pendingToSpawn = s.pendingToSpawn := by
  unfold stepWaveCheck
  split <;> rfl

@[simp] theorem stepWaveCheck_killed (s : GameState) :
    (stepWaveCheck s).killedThisWave = s.killedThisWave := by
  unfold stepWaveCheck
  split <;> rfl

@[simp] theorem stepWaveCheck_score (s : GameState) :
    (stepWaveCheck s).score = s.score := by
  unfold stepWaveCheck
  split <;> rfl

@[simp] theorem stepWaveCheck_running (s : GameState) :
    (stepWaveCheck s).running = s.running := by
  unfold stepWaveCheck
  split <;> rfl

@[simp] theorem stepWaveCheck_anim (s : GameState) :
    (stepWaveCheck s).gameOverAnim = s.gameOverAnim := by
  unfold stepWaveCheck
  split <;> rfl

@[simp] theorem stepWaveCheck_zombies (s : GameState) :
    (stepWaveCheck s).zombies = s.zombies := by
  unfold stepWaveCheck
  split <;> rfl

@[simp] theorem stepWaveCheck_bullets (s : GameState) :
    (stepWaveCheck s).bullets = s.bullets := by
  unfold stepWaveCheck
  split <;> rfl

@[simp] theorem stepWaveCheck_hp (s : GameState) :
    (stepWaveCheck s).player.hp = s.player.hp := by
  unfold stepWaveCheck
  split <;> rfl

@[simp] theorem stepTime_inInt (dt : ℝ) (s : GameState) :
    (stepTime dt s).inIntermission = s.inIntermission := by
  unfold stepTime
  split <;> rfl

@[simp] theorem stepTime_intTimer (dt : ℝ) (s : GameState) :
    (stepTime dt s).intermissionTimer = s.intermissionTimer := by
  unfold stepTime
  split <;> rfl

@[simp] theorem stepTime_cw (dt : ℝ) (s : GameState) :
    (stepTime dt s).currentWave = s.currentWave := by
  unfold stepTime
  split <;> rfl

@[simp] theorem stepTime_total (dt : ℝ) (s : GameState) :
    (stepTime dt s).totalThisWave = s.totalThisWave := by
  unfold stepTime
  split <;> rfl

@[simp] theorem stepTime_spawned (dt : ℝ) (s : GameState) :
    (stepTime dt s).spawnedThisWave = s.spawnedThisWave := by
  unfold stepTime
  split <;> rfl

@[simp] theorem stepTime_pending (dt : ℝ) (s : GameState) :
    (stepTime dt s).pendingToSpawn = s.pendingToSpawn := by
  unfold stepTime
  split <;> rfl

@[simp] theorem stepTime_killed (dt : ℝ) (s : GameState) :
    (stepTime dt s).killedThisWave = s.killedThisWave := by
  unfold stepTime
  split <;> rfl

@[simp] theorem stepTime_score (dt : ℝ) (s : GameState) :
    (stepTime dt s).score = s.score := by
  unfold stepTime
  split <;> rfl

@[simp] theorem stepTime_running (dt : ℝ) (s : GameState) :
    (stepTime dt s).running = s.running := by
  unfold stepTime
  split <;> rfl

@[simp] theorem stepTime_zombies (dt : ℝ) (s : GameState) :
    (stepTime dt s).zombies = s.zombies := by
  unfold stepTime
  split <;> rfl

@[simp] theorem stepTime_bullets (dt : ℝ) (s : GameState) :
    (stepTime dt s).bullets = s.bullets := by
  unfold stepTime
  split <;> rfl

@[simp] theorem stepTime_hp (dt : ℝ) (s : GameState) :
    (stepTime dt s).player.hp = s.player.hp := by
  unfold stepTime
  split <;> rfl

@[simp] theorem start_wave_cw (w : ℤ) (s : GameState) : (start_wave w s).currentWave = w := rfl

@[simp] theorem start_wave_total (w : ℤ) (s : GameState) :
    (start_wave w s).totalThisWave = 8 + (w - 1) * 5 := rfl

@[simp] theorem start_wave_spawned (w : ℤ) (s : GameState) :
    (start_wave w s).spawnedThisWave = 0 := rfl

@[simp] theorem start_wave_killed (w : ℤ) (s : GameState) :
    (start_wave w s).killedThisWave = 0 := rfl

@[simp] theorem start_wave_pending (w : ℤ) (s : GameState) :
    (start_wave w s).pendingToSpawn = 8 + (w - 1) * 5 := rfl

@[simp] theorem start_wave_inInt (w : ℤ) (s : GameState) :
    (start_wave w s).inIntermission = false := rfl

theorem stepIntermission_inactive (dt : ℝ) (s : GameState) (h : s.inIntermission = false) :
    stepIntermission dt s = s := by
  unfold stepIntermission
  rw [if_neg (by rw [h]; simp)]

-- Outcomes of the spawn decision: either nothing spawns (counters and
-- zombie list untouched) or exactly one zombie is appended with the
-- paired counter moves.
theorem stepSpawn_cases (dt : ℝ) (sp : Vec2) (s : GameState) :
    ((stepSpawn dt sp s).zombies = s.zombies ∧
     (stepSpawn dt sp s).spawnedThisWave = s.spawnedThisWave ∧
     (stepSpawn dt sp s).pendingToSpawn = s.pendingToSpawn) ∨
    ((stepSpawn dt sp s).zombies = s.zombies ++ [mkZombie sp s.zombieSpeed] ∧
     (stepSpawn dt sp s).spawnedThisWave = s.spawnedThisWave + 1 ∧
     (stepSpawn dt sp s).pendingToSpawn = s.pendingToSpawn - 1 ∧
     s.inIntermission = false) := by
  unfold stepSpawn
  split
  next hc =>
    split
    · right
      exact ⟨rfl, rfl, rfl, hc.1⟩
    · left
      exact ⟨rfl, rfl, rfl⟩
  next =>
    left
    exact ⟨rfl, rfl, rfl⟩

/-- C1: during an active wave, a frame update enters intermission only
with the completion condition holding on the post-frame state - quota
spawned (equal to the quota under the counter invariant), quota killed,
zero live enemies - and arms the 3-second intermission timer; during
intermission the timer counts down by dt and, once it reaches 0 or
below, the update calls start_wave(currentWave+1), returning to the
active state. -/
theorem wave_transition_spec (dt mx my : ℝ) (kW kS kA kD : Bool) (sp : Vec2) (s : GameState) :
    (s.running = true → s.inIntermission = false →
      (update dt kW kS kA kD mx my sp s).inIntermission = true →
      ((update dt kW kS kA kD mx my sp s).totalThisWave ≤
          (update dt kW kS kA kD mx my sp s).spawnedThisWave ∧
       (update dt kW kS kA kD mx my sp s).totalThisWave ≤
          (update dt kW kS kA kD mx my sp s).killedThisWave ∧
       alive_zombies (update dt kW kS kA kD mx my sp s) = 0 ∧
       (update dt kW kS kA kD mx my sp s).intermissionTimer = 3 ∧
       (WaveInv s → (update dt kW kS kA kD mx my sp s).spawnedThisWave =
          (update dt kW kS kA kD mx my sp s).totalThisWave))) ∧
    (s.running = true → s.inIntermission = true → s.intermissionTimer - dt ≤ 0 →
      1 ≤ s.currentWave →
      ((update dt kW kS kA kD mx my sp s).currentWave = s.currentWave + 1 ∧
       (update dt kW kS kA kD mx my sp s).inIntermission = false)) ∧
    (s.running = true → s.inIntermission = true → 0 < s.intermissionTimer - dt →
      ((update dt kW kS kA kD mx my sp s).inIntermission = true ∧
       (update dt kW kS kA kD mx my sp s).intermissionTimer = s.intermissionTimer - dt ∧
       (update dt kW kS kA kD mx my sp s).currentWave = s.currentWave)) := by
  refine ⟨?_, ?_, ?_⟩
  · intro hrun hact
    unfold update
    rw [if_pos hrun, stepIntermission_inactive dt s hact]
    intro htrans
    set m := stepReap (stepCollide (stepMove dt (stepSpawn dt sp
      (stepShoot mx my (stepInput dt kW kS kA kD mx my s))))) with hm
    rw [stepTime_inInt] at htrans
    have hmInt : m.inIntermission = false := by
      rw [hm]
      simp [hact]
    by_cases hcond : m.inIntermission = false ∧ m.totalThisWave ≤ m.spawnedThisWave ∧
        m.totalThisWave ≤ m.killedThisWave ∧ alive_zombies m = 0
    · have hw : stepWaveCheck m = { m with inIntermission := true, intermissionTimer := 3 } := by
        unfold stepWaveCheck
        rw [if_pos hcond]
      rw [hw]
      obtain ⟨-, h1, h2, h3⟩ := hcond
      refine ⟨by simpa using h1, by simpa using h2, ?_, by simp, ?_⟩
      · simpa [alive_zombies] using h3
      · intro hinv
        have hinvm : WaveInv m := by
          rw [hm]
          exact waveInv_stepReap _ (waveInv_stepCollide _ (waveInv_stepMove _ _
            (waveInv_stepSpawn _ _ _ (waveInv_stepShoot _ _ _
              (waveInv_stepInput _ _ _ _ _ _ _ _ hinv)))))
        obtain ⟨hi1, hi2, -⟩ := hinvm
        simp only [stepTime_spawned, stepTime_total]
        show ({ m with inIntermission := true, intermissionTimer := 3 }).spawnedThisWave =
          ({ m with inIntermission := true, intermissionTimer := 3 }).totalThisWave
        simp only []
        omega
    · exfalso
      have hw : stepWaveCheck m = m := by
        unfold stepWaveCheck
        rw [if_neg hcond]
      rw [hw, hmInt] at htrans
      exact absurd htrans (by simp)
  · intro hrun hint hle hcw
    unfold update
    rw [if_pos hrun]
    have hI : stepIntermission dt s =
        start_wave (s.currentWave + 1) { s with intermissionTimer := s.intermissionTimer - dt } := by
      unfold stepIntermission
      rw [if_pos hint, if_pos hle]
    rw [hI]
    set t0 := start_wave (s.currentWave + 1)
      { s with intermissionTimer := s.intermissionTimer - dt } with ht0
    set q := stepShoot mx my (stepInput dt kW kS kA kD mx my t0) with hq
    set m := stepReap (stepCollide (stepMove dt (stepSpawn dt sp q))) with hm
    have hq_spawned : q.spawnedThisWave = 0 := by
      rw [hq]
      simp [ht0]
    have hq_total : q.totalThisWave = 8 + s.currentWave * 5 := by
      rw [hq]
      simp only [stepShoot_total, stepInput_total, ht0, start_wave_total]
      omega
    have hm_spawned : m.spawnedThisWave = 0 ∨ m.spawnedThisWave = 1 := by
      have hc := stepSpawn_cases dt sp q
      rw [hm]
      simp only [stepReap_spawned, stepCollide_spawned, stepMove_spawned]
      rcases hc with ⟨-, h, -⟩ | ⟨-, h, -⟩
      · left
        rw [h, hq_spawned]
      · right
        rw [h, hq_spawned]
        omega
    have hm_total : m.totalThisWave = 8 + s.currentWave * 5 := by
      rw [hm]
      simp only [stepReap_total, stepCollide_total, stepMove_total, stepSpawn_total]
      exact hq_total
    have hncond : ¬(m.inIntermission = false ∧ m.totalThisWave ≤ m.spawnedThisWave ∧
        m.totalThisWave ≤ m.killedThisWave ∧ alive_zombies m = 0) := by
      intro hc
      have h21 := hc.2.1
      rcases hm_spawned with h | h <;> omega
    have hw : stepWaveCheck m = m := by
      unfold stepWaveCheck
      rw [if_neg hncond]
    constructor
    · rw [hw]
      simp only [stepTime_cw]
      rw [hm]
      simp only [stepReap_cw, stepCollide_cw, stepMove_cw, stepSpawn_cw]
      rw [hq]
      simp only [stepShoot_cw, stepInput_cw, ht0, start_wave_cw]
    · rw [hw]
      simp only [stepTime_inInt]
      rw [hm]
      simp only [stepReap_inInt, stepCollide_inInt, stepMove_inInt, stepSpawn_inInt]
      rw [hq]
      simp only [stepShoot_inInt, stepInput_inInt, ht0, start_wave_inInt]
  · intro hrun hint hgt
    unfold update
    rw [if_pos hrun]
    have hI : stepIntermission dt s = { s with intermissionTimer := s.intermissionTimer - dt } := by
      unfold stepIntermission
      rw [if_pos hint, if_neg (not_le.mpr hgt)]
    rw [hI]
    set s1 := { s with intermissionTimer := s.intermissionTimer - dt } with hs1
    set m := stepReap (stepCollide (stepMove dt (stepSpawn dt sp
      (stepShoot mx my (stepInput dt kW kS kA kD mx my s1))))) with hm
    have hmInt : m.inIntermission = true := by
      rw [hm]
      simp [hs1, hint]
    have hmTimer : m.intermissionTimer = s.intermissionTimer - dt := by
      rw [hm]
      simp [hs1]
    have hmCw : m.currentWave = s.currentWave := by
      rw [hm]
      simp [hs1]
    have hncond : ¬(m.inIntermission = false ∧ m.totalThisWave ≤ m.spawnedThisWave ∧
        m.totalThisWave ≤ m.killedThisWave ∧ alive_zombies m = 0) := by
      intro hc
      rw [hmInt] at hc
      exact absurd hc.1 (by simp)
    have hw : stepWaveCheck m = m := by
      unfold stepWaveCheck
      rw [if_neg hncond]
    rw [hw]
    refine ⟨?_, ?_, ?_⟩
    · rw [stepTime_inInt]
      exact hmInt
    · rw [stepTime_intTimer]
      exact hmTimer
    · rw [stepTime_cw]
      exact hmCw

-- A concrete mid-intermission state for the C1 witness.
noncomputable def cInt : GameState :=
  { cBase with inIntermission := true, intermissionTimer := 3 }

/-- Witness for C1: one second into a 3-second intermission the
scheduler is still in intermission with the timer at 2 and the wave
number unchanged. -/
theorem wave_transition_spec_witness :
    cInt.running = true ∧ cInt.inIntermission = true ∧ (0 : ℝ) < cInt.intermissionTimer - 1 ∧
    ((update 1 false false false false 0 0 ⟨0, 0⟩ cInt).inIntermission = true ∧
     (update 1 false false false false 0 0 ⟨0, 0⟩ cInt).intermissionTimer =
       cInt.intermissionTimer - 1 ∧
     (update 1 false false false false 0 0 ⟨0, 0⟩ cInt).currentWave = cInt.currentWave) := by
  have hgt : (0 : ℝ) < cInt.intermissionTimer - 1 := by
    rw [show cInt.intermissionTimer = 3 from rfl]
    norm_num
  exact ⟨rfl, rfl, hgt,
    (wave_transition_spec 1 0 0 false false false false ⟨0, 0⟩ cInt).2.2 rfl rfl hgt⟩

-- ---------- Kill accounting (C10) ----------

theorem aliveCount_nonneg (zs : List Zombie) : 0 ≤ aliveCount zs := by
  induction zs with
  | nil => simp [aliveCount]
  | cons z zs ih =>
    simp only [aliveCount]
    split <;> omega

theorem aliveCount_append (xs ys : List Zombie) :
    aliveCount (xs ++ ys) = aliveCount xs + aliveCount ys := by
  induction xs with
  | nil => simp [aliveCount]
  | cons z zs ih =>
    simp only [List.cons_append, aliveCount]
    rw [show zs.append ys = zs ++ ys from rfl, ih]
    ring

theorem aliveCount_map_zombieStep (dt : ℝ) (t : Vec2) (w h : ℝ) (zs : List Zombie) :
    aliveCount (zs.map (zombieStep dt t w h)) = aliveCount zs := by
  induction zs with
  | nil => rfl
  | cons z zs ih =>
    simp only [List.map, aliveCount, ih]
    rfl

theorem aliveCount_filter (zs : List Zombie) :
    aliveCount (zs.filter (fun z => z.alive)) = aliveCount zs := by
  induction zs with
  | nil => rfl
  | cons z zs ih =>
    cases hz : z.alive
    · simp [List.filter, hz, aliveCount, ih]
    · simp [List.filter, hz, aliveCount, ih]

theorem aliveCount_map_killIf (ppos : Vec2) (prad : ℝ) (zs : List Zombie) :
    aliveCount (zs.map (killIf ppos prad)) = aliveCount zs - contactCount ppos prad zs := by
  induction zs with
  | nil => simp [aliveCount, contactCount]
  | cons z zs ih =>
    simp only [List.map, aliveCount, contactCount, killIf]
    by_cases hc : z.alive = true ∧ circle_hit z.pos z.radius ppos prad
    · simp only [if_pos hc]
      rw [if_neg (by simp : ¬(({ z with alive := false } : Zombie).alive = true)),
          if_pos hc.1, ih]
      omega
    · simp only [if_neg hc]
      rw [ih]
      omega

theorem zbPass_nil_bullets (sc kl : ℤ) (zs : List Zombie) :
    zbPass sc kl [] zs = ⟨zs, [], sc, kl⟩ := by
  induction zs generalizing sc kl with
  | nil => rfl
  | cons z zs ih =>
    simp only [zbPass, zbOne, ih]

theorem zbOne_dead (z : Zombie) (sc kl : ℤ) (bs : List Bullet) (h : z.alive = false) :
    (zbOne z sc kl bs).z = z := by
  induction bs generalizing sc kl with
  | nil => rfl
  | cons b bs ih =>
    simp only [zbOne]
    rw [if_neg (fun hc => by rw [h] at hc; exact absurd hc.1 (by simp))]
    exact ih sc kl

theorem zbOne_sum (z : Zombie) (sc kl : ℤ) (bs : List Bullet) :
    (zbOne z sc kl bs).killed + (if (zbOne z sc kl bs).z.alive = true then (1 : ℤ) else 0) =
      kl + (if z.alive = true then (1 : ℤ) else 0) := by
  induction bs generalizing z sc kl with
  | nil => rfl
  | cons b bs ih =>
    by_cases hc : z.alive = true ∧ b.alive = true ∧ circle_hit z.pos z.radius b.pos b.radius
    · simp only [zbOne, if_pos hc]
      have hdead := zbOne_dead { z with alive := false } (sc + 10) (kl + 1) bs rfl
      rw [hdead, if_pos hc.1,
          if_neg (by simp : ¬(({ z with alive := false } : Zombie).alive = true))]
      have h2 := ih { z with alive := false } (sc + 10) (kl + 1)
      rw [hdead,
          if_neg (by simp : ¬(({ z with alive := false } : Zombie).alive = true))] at h2
      omega
    · simp only [zbOne, if_neg hc]
      exact ih z sc kl

theorem zbPass_sum (sc kl : ℤ) (bs : List Bullet) (zs : List Zombie) :
    (zbPass sc kl bs zs).killed + aliveCount (zbPass sc kl bs zs).zombies =
      kl + aliveCount zs := by
  induction zs generalizing sc kl bs with
  | nil => simp [zbPass, aliveCount]
  | cons z zs ih =>
    simp only [zbPass, aliveCount]
    have h1 := zbOne_sum z sc kl bs
    have h2 := ih (zbOne z sc kl bs).score (zbOne z sc kl bs).killed (zbOne z sc kl bs).bullets
    omega

theorem stepShoot_noshoot (mx my : ℝ) (s : GameState) (h : s.queuedShoot = false) :
    stepShoot mx my s = { s with queuedShoot := false } := by
  unfold stepShoot
  rw [if_neg (fun hc => by rw [h] at hc; exact absurd hc.1 (by simp))]

@[simp] theorem stepInput_queued (dt : ℝ) (kW kS kA kD : Bool) (mx my : ℝ) (s : GameState) :
    (stepInput dt kW kS kA kD mx my s).queuedShoot = s.queuedShoot := rfl

theorem stepMove_zombies (dt : ℝ) (s : GameState) :
    (stepMove dt s).zombies = s.zombies.map
      (zombieStep dt (clampVec (s.player.pos + s.player.vel * dt) s.width s.height)
        s.width s.height) := rfl

theorem stepMove_bullets (dt : ℝ) (s : GameState) :
    (stepMove dt s).bullets = s.bullets.map (Bullet.update dt) := rfl

theorem stepCollide_killed_def (s : GameState) :
    (stepCollide s).killedThisWave =
      (zbPass s.score s.killedThisWave s.bullets s.zombies).killed := rfl

theorem stepCollide_score_def (s : GameState) :
    (stepCollide s).score = (zbPass s.score s.killedThisWave s.bullets s.zombies).score := rfl

theorem stepCollide_zombies_def (s : GameState) :
    (stepCollide s).zombies =
      (zpPass s.player.pos s.player.radius s.player.hp s.running s.gameOverAnim
        (zbPass s.score s.killedThisWave s.bullets s.zombies).zombies).zombies := rfl

theorem stepCollide_hp_def (s : GameState) :
    (stepCollide s).player.hp =
      (zpPass s.player.pos s.player.radius s.player.hp s.running s.gameOverAnim
        (zbPass s.score s.killedThisWave s.bullets s.zombies).zombies).hp := rfl

theorem stepReap_zombies_def (s : GameState) :
    (stepReap s).zombies = s.zombies.filter (fun z => z.alive) := rfl

-- Kill-deficit ledger: killed plus live enemies falls short of spawned
-- by at least c.  Slack 0 holds in every reachable in-wave state; a
-- contact death creates slack 1, which blocks the completion check.
def KillSlack (c : ℤ) (s : GameState) : Prop :=
  WaveInv s ∧ s.killedThisWave + aliveCount s.zombies + c ≤ s.spawnedThisWave ∧
  s.inIntermission = false

theorem killSlack_stepInput (c : ℤ) (dt : ℝ) (kW kS kA kD : Bool) (mx my : ℝ)
    (s : GameState) (h : KillSlack c s) :
    KillSlack c (stepInput dt kW kS kA kD mx my s) := h

theorem killSlack_stepShoot (c : ℤ) (mx my : ℝ) (s : GameState) (h : KillSlack c s) :
    KillSlack c (stepShoot mx my s) := by
  obtain ⟨h1, h2, h3⟩ := h
  refine ⟨waveInv_stepShoot _ _ _ h1, ?_, ?_⟩
  · rw [stepShoot_killed, stepShoot_zombies, stepShoot_spawned]
    exact h2
  · rw [stepShoot_inInt]
    exact h3

theorem killSlack_stepSpawn (c : ℤ) (dt : ℝ) (sp : Vec2) (s : GameState) (h : KillSlack c s) :
    KillSlack c (stepSpawn dt sp s) := by
  obtain ⟨h1, h2, h3⟩ := h
  refine ⟨waveInv_stepSpawn _ _ _ h1, ?_, by rw [stepSpawn_inInt]; exact h3⟩
  rcases stepSpawn_cases dt sp s with ⟨hz, hsp, -⟩ | ⟨hz, hsp, -⟩
  · rw [stepSpawn_killed, hz, hsp]
    exact h2
  · rw [stepSpawn_killed, hz, hsp, aliveCount_append,
        show aliveCount [mkZombie sp s.zombieSpeed] = 1 from rfl]
    omega

theorem killSlack_stepMove (c : ℤ) (dt : ℝ) (s : GameState) (h : KillSlack c s) :
    KillSlack c (stepMove dt s) := by
  obtain ⟨h1, h2, h3⟩ := h
  refine ⟨waveInv_stepMove _ _ h1, ?_, by rw [stepMove_inInt]; exact h3⟩
  rw [stepMove_killed, stepMove_spawned, stepMove_zombies, aliveCount_map_zombieStep]
  exact h2

theorem killSlack_stepCollide (c : ℤ) (s : GameState) (h : KillSlack c s) :
    KillSlack c (stepCollide s) := by
  obtain ⟨h1, h2, h3⟩ := h
  refine ⟨waveInv_stepCollide _ h1, ?_, by rw [stepCollide_inInt]; exact h3⟩
  rw [stepCollide_killed_def, stepCollide_zombies_def, stepCollide_spawned,
      zpPass_zombies_eq, aliveCount_map_killIf]
  have hsum := zbPass_sum s.score s.killedThisWave s.bullets s.zombies
  have hcc := contactCount_nonneg s.player.pos s.player.radius
    (zbPass s.score s.killedThisWave s.bullets s.zombies).zombies
  omega

theorem killSlack_stepReap (c : ℤ) (s : GameState) (h : KillSlack c s) :
    KillSlack c (stepReap s) := by
  obtain ⟨h1, h2, h3⟩ := h
  refine ⟨waveInv_stepReap _ h1, ?_, by rw [stepReap_inInt]; exact h3⟩
  rw [stepReap_killed, stepReap_spawned, stepReap_zombies_def, aliveCount_filter]
  exact h2

theorem killSlack_stepWaveCheck (c : ℤ) (s : GameState) (hc : 1 ≤ c) (h : KillSlack c s) :
    KillSlack c (stepWaveCheck s) := by
  obtain ⟨h1, h2, h3⟩ := h
  have hno : ¬(s.inIntermission = false ∧ s.totalThisWave ≤ s.spawnedThisWave ∧
      s.totalThisWave ≤ s.killedThisWave ∧ alive_zombies s = 0) := by
    intro hcond
    obtain ⟨hw1, hw2, -⟩ := h1
    have han := aliveCount_nonneg s.zombies
    have hk := hcond.2.2.1
    omega
  have hid : stepWaveCheck s = s := by
    unfold stepWaveCheck
    rw [if_neg hno]
  rw [hid]
  exact ⟨h1, h2, h3⟩

theorem killSlack_stepTime (c : ℤ) (dt : ℝ) (s : GameState) (h : KillSlack c s) :
    KillSlack c (stepTime dt s) := by
  obtain ⟨h1, h2, h3⟩ := h
  refine ⟨waveInv_stepTime _ _ h1, ?_, by rw [stepTime_inInt]; exact h3⟩
  rw [stepTime_killed, stepTime_spawned, stepTime_zombies]
  exact h2

theorem killSlack_update (c : ℤ) (hc : 1 ≤ c) (dt : ℝ) (kW kS kA kD : Bool) (mx my : ℝ)
    (sp : Vec2) (s : GameState) (h : KillSlack c s) :
    KillSlack c (update dt kW kS kA kD mx my sp s) := by
  unfold update
  split
  · rw [stepIntermission_inactive dt s h.2.2]
    exact killSlack_stepTime _ _ _ (killSlack_stepWaveCheck _ _ hc (killSlack_stepReap _ _
      (killSlack_stepCollide _ _ (killSlack_stepMove _ _ _ (killSlack_stepSpawn _ _ _ _
        (killSlack_stepShoot _ _ _ _ (killSlack_stepInput _ _ _ _ _ _ _ _ _ h)))))))
  · exact h

theorem killSlack_runFrames (c : ℤ) (hc : 1 ≤ c) (inputs : List FrameInput) (s : GameState)
    (h : KillSlack c s) : KillSlack c (runFrames inputs s) := by
  induction inputs generalizing s with
  | nil => exact h
  | cons i is ih =>
    exact ih _ (killSlack_update c hc i.dt i.kW i.kS i.kA i.kD i.mx i.my i.spawnPos s h)

theorem update_no_bullets (dt : ℝ) (kW kS kA kD : Bool) (mx my : ℝ) (sp : Vec2)
    (s : GameState) (hb : s.bullets = []) (hq : s.queuedShoot = false)
    (hi : s.inIntermission = false) :
    (update dt kW kS kA kD mx my sp s).killedThisWave = s.killedThisWave ∧
    (update dt kW kS kA kD mx my sp s).score = s.score := by
  unfold update
  split
  case isFalse => exact ⟨rfl, rfl⟩
  case isTrue hr =>
    rw [stepIntermission_inactive dt s hi,
        stepShoot_noshoot mx my (stepInput dt kW kS kA kD mx my s) hq]
    set t3 := ({ stepInput dt kW kS kA kD mx my s with queuedShoot := false } : GameState)
      with ht3
    set t5 := stepMove dt (stepSpawn dt sp t3) with ht5
    have hb5 : t5.bullets = [] := by
      rw [ht5, stepMove_bullets, stepSpawn_bullets]
      show List.map _ s.bullets = []
      rw [hb]
      simp
    have hcol : (stepCollide t5).killedThisWave = t5.killedThisWave ∧
        (stepCollide t5).score = t5.score := by
      rw [stepCollide_killed_def, stepCollide_score_def, hb5, zbPass_nil_bullets]
      exact ⟨rfl, rfl⟩
    constructor
    · rw [stepTime_killed, stepWaveCheck_killed, stepReap_killed, hcol.1, ht5,
          stepMove_killed, stepSpawn_killed]
      rfl
    · rw [stepTime_score, stepWaveCheck_score, stepReap_score, hcol.2, ht5,
          stepMove_score, stepSpawn_score]
      rfl

theorem zbOne_killed_mono (z : Zombie) (sc kl : ℤ) (bs : List Bullet) :
    kl ≤ (zbOne z sc kl bs).killed := by
  induction bs generalizing z sc kl with
  | nil => exact le_refl kl
  | cons b bs ih =>
    by_cases hc : z.alive = true ∧ b.alive = true ∧ circle_hit z.pos z.radius b.pos b.radius
    · simp only [zbOne, if_pos hc]
      have h := ih { z with alive := false } (sc + 10) (kl + 1)
      omega
    · simp only [zbOne, if_neg hc]
      exact ih z sc kl

theorem zbPass_killed_mono (sc kl : ℤ) (bs : List Bullet) (zs : List Zombie) :
    kl ≤ (zbPass sc kl bs zs).killed := by
  induction zs generalizing sc kl bs with
  | nil => exact le_refl kl
  | cons z zs ih =>
    simp only [zbPass]
    have h1 := zbOne_killed_mono z sc kl bs
    have h2 := ih (zbOne z sc kl bs).score (zbOne z sc kl bs).killed (zbOne z sc kl bs).bullets
    omega

theorem contactCount_le_alive (ppos : Vec2) (prad : ℝ) (zs : List Zombie) :
    contactCount ppos prad zs ≤ aliveCount zs := by
  induction zs with
  | nil => exact le_refl 0
  | cons z zs ih =>
    simp only [contactCount, aliveCount]
    by_cases hc : z.alive = true ∧ circle_hit z.pos z.radius ppos prad
    · rw [if_pos hc, if_pos hc.1]
      omega
    · rw [if_neg hc]
      split <;> omega

@[simp] theorem start_wave_zombies (w : ℤ) (s : GameState) :
    (start_wave w s).zombies = s.zombies := rfl

theorem stepIntermission_player (dt : ℝ) (s : GameState) :
    (stepIntermission dt s).player = s.player := by
  unfold stepIntermission
  split
  · split <;> rfl
  · rfl

theorem stepMove_ppos_def (dt : ℝ) (s : GameState) :
    (stepMove dt s).player.pos =
      clampVec (s.player.pos + s.player.vel * dt) s.width s.height := rfl

-- Reachable-state ledger invariant: the wave counters are consistent,
-- every killed-or-live enemy of the wave consumed a spawn slot, and
-- during intermission no enemy is alive.  It holds at game start
-- (start_wave 1 with an empty enemy list) and is preserved by every
-- frame, so it holds in every reachable state.
def ReachInv (s : GameState) : Prop :=
  WaveInv s ∧ s.killedThisWave + aliveCount s.zombies ≤ s.spawnedThisWave ∧
  (s.inIntermission = true → aliveCount s.zombies = 0)

theorem reachInv_start_wave (w : ℤ) (s : GameState) (hw : 1 ≤ w)
    (hz : aliveCount s.zombies = 0) : ReachInv (start_wave w s) := by
  refine ⟨waveInv_start_wave w s hw, ?_, ?_⟩
  · rw [start_wave_killed, start_wave_zombies, start_wave_spawned, hz]
    norm_num
  · intro hcontra
    rw [start_wave_inInt] at hcontra
    exact absurd hcontra (by simp)

theorem reachInv_stepIntermission (dt : ℝ) (s : GameState) (h : ReachInv s) :
    ReachInv (stepIntermission dt s) := by
  unfold stepIntermission
  split
  next hint =>
    have hz0 : aliveCount s.zombies = 0 := h.2.2 hint
    split
    · refine reachInv_start_wave _ _ ?_ ?_
      · show 1 ≤ s.currentWave + 1
        have := h.1.2.2
        omega
      · exact hz0
    · exact ⟨h.1, h.2.1, fun _ => hz0⟩
  next => exact h

theorem reachInv_stepInput (dt : ℝ) (kW kS kA kD : Bool) (mx my : ℝ) (s : GameState)
    (h : ReachInv s) : ReachInv (stepInput dt kW kS kA kD mx my s) := h

theorem reachInv_stepShoot (mx my : ℝ) (s : GameState) (h : ReachInv s) :
    ReachInv (stepShoot mx my s) := by
  refine ⟨waveInv_stepShoot _ _ _ h.1, ?_, ?_⟩
  · rw [stepShoot_killed, stepShoot_zombies, stepShoot_spawned]
    exact h.2.1
  · intro hh
    rw [stepShoot_zombies]
    rw [stepShoot_inInt] at hh
    exact h.2.2 hh

theorem reachInv_stepSpawn (dt : ℝ) (sp : Vec2) (s : GameState) (h : ReachInv s) :
    ReachInv (stepSpawn dt sp s) := by
  refine ⟨waveInv_stepSpawn _ _ _ h.1, ?_, ?_⟩
  · rcases stepSpawn_cases dt sp s with ⟨hz, hsp, -⟩ | ⟨hz, hsp, -⟩
    · rw [stepSpawn_killed, hz, hsp]
      exact h.2.1
    · rw [stepSpawn_killed, hz, hsp, aliveCount_append,
          show aliveCount [mkZombie sp s.zombieSpeed] = 1 from rfl]
      have := h.2.1
      omega
  · intro hh
    rw [stepSpawn_inInt] at hh
    rcases stepSpawn_cases dt sp s with ⟨hz, -⟩ | ⟨-, -, -, hii⟩
    · rw [hz]
      exact h.2.2 hh
    · rw [hii] at hh
      exact absurd hh (by simp)

theorem reachInv_stepMove (dt : ℝ) (s : GameState) (h : ReachInv s) :
    ReachInv (stepMove dt s) := by
  refine ⟨waveInv_stepMove _ _ h.1, ?_, ?_⟩
  · rw [stepMove_killed, stepMove_spawned, stepMove_zombies, aliveCount_map_zombieStep]
    exact h.2.1
  · intro hh
    rw [stepMove_zombies, aliveCount_map_zombieStep]
    rw [stepMove_inInt] at hh
    exact h.2.2 hh

theorem reachInv_stepCollide (s : GameState) (h : ReachInv s) :
    ReachInv (stepCollide s) := by
  have hsum := zbPass_sum s.score s.killedThisWave s.bullets s.zombies
  have hmono := zbPass_killed_mono s.score s.killedThisWave s.bullets s.zombies
  have hnn := aliveCount_nonneg (zbPass s.score s.killedThisWave s.bullets s.zombies).zombies
  have hccle := contactCount_le_alive s.player.pos s.player.radius
    (zbPass s.score s.killedThisWave s.bullets s.zombies).zombies
  have hccnn := contactCount_nonneg s.player.pos s.player.radius
    (zbPass s.score s.killedThisWave s.bullets s.zombies).zombies
  refine ⟨waveInv_stepCollide _ h.1, ?_, ?_⟩
  · rw [stepCollide_killed_def, stepCollide_zombies_def, stepCollide_spawned,
        zpPass_zombies_eq, aliveCount_map_killIf]
    have := h.2.1
    omega
  · intro hh
    rw [stepCollide_inInt] at hh
    have hz0 := h.2.2 hh
    rw [stepCollide_zombies_def, zpPass_zombies_eq, aliveCount_map_killIf]
    omega

theorem reachInv_stepReap (s : GameState) (h : ReachInv s) : ReachInv (stepReap s) := by
  refine ⟨waveInv_stepReap _ h.1, ?_, ?_⟩
  · rw [stepReap_killed, stepReap_spawned, stepReap_zombies_def, aliveCount_filter]
    exact h.2.1
  · intro hh
    rw [stepReap_zombies_def, aliveCount_filter]
    rw [stepReap_inInt] at hh
    exact h.2.2 hh

theorem reachInv_stepWaveCheck (s : GameState) (h : ReachInv s) :
    ReachInv (stepWaveCheck s) := by
  unfold stepWaveCheck
  split
  next hc => exact ⟨h.1, h.2.1, fun _ => hc.2.2.2⟩
  next => exact h

theorem reachInv_stepTime (dt : ℝ) (s : GameState) (h : ReachInv s) :
    ReachInv (stepTime dt s) := by
  refine ⟨waveInv_stepTime _ _ h.1, ?_, ?_⟩
  · rw [stepTime_killed, stepTime_spawned, stepTime_zombies]
    exact h.2.1
  · intro hh
    rw [stepTime_zombies]
    rw [stepTime_inInt] at hh
    exact h.2.2 hh

theorem reachInv_update (dt : ℝ) (kW kS kA kD : Bool) (mx my : ℝ) (sp : Vec2)
    (s : GameState) (h : ReachInv s) :
    ReachInv (update dt kW kS kA kD mx my sp s) := by
  unfold update
  split
  · exact reachInv_stepTime _ _ (reachInv_stepWaveCheck _ (reachInv_stepReap _
      (reachInv_stepCollide _ (reachInv_stepMove _ _ (reachInv_stepSpawn _ _ _
        (reachInv_stepShoot _ _ _ (reachInv_stepInput _ _ _ _ _ _ _ _
          (reachInv_stepIntermission _ _ h))))))))
  · exact h

-- A frame in which hp drops (one damage tick per contact death, with
-- any number of projectiles in flight) turns the reachable-state
-- ledger into the strict deficit KillSlack 1.
theorem contact_death_slack (dt : ℝ) (kW kS kA kD : Bool) (mx my : ℝ) (sp : Vec2)
    (s : GameState) (h0 : ReachInv s)
    (hdrop : (update dt kW kS kA kD mx my sp s).player.hp < s.player.hp) :
    KillSlack 1 (update dt kW kS kA kD mx my sp s) := by
  by_cases hr : s.running = true
  case neg =>
    exfalso
    have hf : s.running = false := by
      cases hhr : s.running
      · rfl
      · exact absurd hhr hr
    have hupd : update dt kW kS kA kD mx my sp s = s := by
      unfold update
      rw [if_neg (by rw [hf]; simp)]
    rw [hupd] at hdrop
    exact absurd hdrop (lt_irrefl _)
  case pos =>
    have hupd : update dt kW kS kA kD mx my sp s =
        stepTime dt (stepWaveCheck (stepReap (stepCollide (stepMove dt (stepSpawn dt sp
          (stepShoot mx my (stepInput dt kW kS kA kD mx my
            (stepIntermission dt s)))))))) := by
      unfold update
      rw [if_pos hr]
    set t := stepIntermission dt s with htdef
    have htp : t.player = s.player := by
      rw [htdef]
      exact stepIntermission_player dt s
    have hwt : WaveInv t := by
      rw [htdef]
      exact waveInv_stepIntermission dt s h0.1
    have hti : (t.killedThisWave + aliveCount t.zombies ≤ t.spawnedThisWave) ∧
        (t.inIntermission = false ∨
          (t.inIntermission = true ∧ aliveCount t.zombies = 0)) := by
      rw [htdef]
      unfold stepIntermission
      split
      next hint =>
        have hz0 : aliveCount s.zombies = 0 := h0.2.2 hint
        split
        · constructor
          · rw [start_wave_killed, start_wave_zombies, start_wave_spawned]
            show (0 : ℤ) + aliveCount s.zombies ≤ 0
            omega
          · left
            rw [start_wave_inInt]
        · exact ⟨h0.2.1, Or.inr ⟨hint, hz0⟩⟩
      next hint =>
        refine ⟨h0.2.1, Or.inl ?_⟩
        cases hii : s.inIntermission
        · rfl
        · exact absurd hii hint
    rw [hupd] at hdrop ⊢
    set q := stepShoot mx my (stepInput dt kW kS kA kD mx my t) with hq
    set t4 := stepSpawn dt sp q with ht4
    set t5 := stepMove dt t4 with ht5
    set t6 := stepCollide t5 with ht6
    set t7 := stepReap t6 with ht7
    have hk5 : t5.killedThisWave = t.killedThisWave := by
      rw [ht5, stepMove_killed, ht4, stepSpawn_killed, hq]
      simp
    have hp5 : t5.player.hp = t.player.hp := by
      rw [ht5, stepMove_hp, ht4, stepSpawn_player, hq]
      simp
    have hI5 : t5.inIntermission = t.inIntermission := by
      rw [ht5, stepMove_inInt, ht4, stepSpawn_inInt, hq]
      simp
    have hqa : aliveCount q.zombies = aliveCount t.zombies := by
      rw [hq]
      simp
    have hqs : q.spawnedThisWave = t.spawnedThisWave := by
      rw [hq]
      simp
    have hqi : q.inIntermission = t.inIntermission := by
      rw [hq]
      simp
    have hs5cases : (aliveCount t5.zombies = aliveCount t.zombies ∧
        t5.spawnedThisWave = t.spawnedThisWave) ∨
        (aliveCount t5.zombies = aliveCount t.zombies + 1 ∧
         t5.spawnedThisWave = t.spawnedThisWave + 1 ∧ q.inIntermission = false) := by
      have hc := stepSpawn_cases dt sp q
      rw [← ht4] at hc
      rcases hc with ⟨hz, hsp, -⟩ | ⟨hz, hsp, -, hii⟩
      · left
        constructor
        · rw [ht5, stepMove_zombies, aliveCount_map_zombieStep, hz, hqa]
        · rw [ht5, stepMove_spawned, hsp, hqs]
      · right
        refine ⟨?_, ?_, hii⟩
        · rw [ht5, stepMove_zombies, aliveCount_map_zombieStep, hz, aliveCount_append,
              show aliveCount [mkZombie sp q.zombieSpeed] = 1 from rfl, hqa]
        · rw [ht5, stepMove_spawned, hsp, hqs]
    set zs6 := (zbPass t5.score t5.killedThisWave t5.bullets t5.zombies).zombies with hzs6
    set k6 := (zbPass t5.score t5.killedThisWave t5.bullets t5.zombies).killed with hk6d
    set cc := contactCount t5.player.pos t5.player.radius zs6 with hccd
    have hsum : k6 + aliveCount zs6 = t5.killedThisWave + aliveCount t5.zombies := by
      rw [hk6d, hzs6]
      exact zbPass_sum _ _ _ _
    have hkmono : t5.killedThisWave ≤ k6 := by
      rw [hk6d]
      exact zbPass_killed_mono _ _ _ _
    have hccle : cc ≤ aliveCount zs6 := by
      rw [hccd, hzs6]
      exact contactCount_le_alive _ _ _
    have hccnn : 0 ≤ cc := by
      rw [hccd, hzs6]
      exact contactCount_nonneg _ _ _
    have h6k : t6.killedThisWave = k6 := by
      rw [ht6, stepCollide_killed_def, ← hk6d]
    have h6a : aliveCount t6.zombies = aliveCount zs6 - cc := by
      rw [ht6, stepCollide_zombies_def, ← hzs6, zpPass_zombies_eq, aliveCount_map_killIf,
          ← hccd]
    have h6hp : t6.player.hp = t5.player.hp - cc := by
      rw [ht6, stepCollide_hp_def, ← hzs6, zpPass_hp_eq, ← hccd]
    have h6s : t6.spawnedThisWave = t5.spawnedThisWave := by
      rw [ht6, stepCollide_spawned]
    have h6i : t6.inIntermission = t5.inIntermission := by
      rw [ht6, stepCollide_inInt]
    have h7k : t7.killedThisWave = t6.killedThisWave := by
      rw [ht7, stepReap_killed]
    have h7a : aliveCount t7.zombies = aliveCount t6.zombies := by
      rw [ht7, stepReap_zombies_def, aliveCount_filter]
    have h7s : t7.spawnedThisWave = t6.spawnedThisWave := by
      rw [ht7, stepReap_spawned]
    have h7i : t7.inIntermission = t6.inIntermission := by
      rw [ht7, stepReap_inInt]
    have h7hp : t7.player.hp = t6.player.hp := by
      rw [ht7, stepReap_hp]
    have hfin : (stepTime dt (stepWaveCheck t7)).player.hp = t.player.hp - cc := by
      rw [stepTime_hp, stepWaveCheck_hp, h7hp, h6hp, hp5]
    have htphp : t.player.hp = s.player.hp := by
      rw [htp]
    have hcc1 : 1 ≤ cc := by
      rw [hfin, htphp] at hdrop
      omega
    rcases hti.2 with hIf | ⟨hIt, hz0⟩
    · have hw7 : WaveInv t7 := by
        rw [ht7, ht6, ht5, ht4, hq]
        exact waveInv_stepReap _ (waveInv_stepCollide _ (waveInv_stepMove _ _
          (waveInv_stepSpawn _ _ _ (waveInv_stepShoot _ _ _
            (waveInv_stepInput _ _ _ _ _ _ _ _ hwt)))))
      have hI7 : t7.inIntermission = false := by
        rw [h7i, h6i, hI5, hIf]
      have hslack : KillSlack 1 t7 := by
        refine ⟨hw7, ?_, hI7⟩
        have hled := hti.1
        rcases hs5cases with ⟨ha, hs⟩ | ⟨ha, hs, -⟩ <;> omega
      exact killSlack_stepTime 1 dt _ (killSlack_stepWaveCheck 1 _ le_rfl hslack)
    · exfalso
      rcases hs5cases with ⟨ha, -⟩ | ⟨-, -, hii⟩
      · have han := aliveCount_nonneg zs6
        omega
      · rw [hqi, hIt] at hii
        exact absurd hii (by simp)

/-- C10: killedThisWave and score are written only by the
bullets-vs-zombies pass (definitionally in stepCollide, so the
zombies-vs-player pass contributes nothing to them, and a frame with no
projectiles and no queued shot leaves both unchanged even when enemies
die on the player); the reachable-state ledger ReachInv (killed + live
enemies <= spawned, and no live enemies during intermission) holds from
start_wave at game start and is preserved by every frame; a frame in
which some enemy dies by player contact (hp drops, projectiles in
flight allowed) turns the ledger into the strict deficit
killed + live + 1 <= spawned; and that deficit persists under every
further frame, during which the scheduler never enters intermission for
the remainder of the wave. -/
theorem contact_kill_uncounted :
    (∀ s : GameState,
      (stepCollide s).killedThisWave =
        (zbPass s.score s.killedThisWave s.bullets s.zombies).killed ∧
      (stepCollide s).score = (zbPass s.score s.killedThisWave s.bullets s.zombies).score) ∧
    (∀ (dt : ℝ) (kW kS kA kD : Bool) (mx my : ℝ) (sp : Vec2) (s : GameState),
      s.bullets = [] → s.queuedShoot = false → s.inIntermission = false →
      (update dt kW kS kA kD mx my sp s).killedThisWave = s.killedThisWave ∧
      (update dt kW kS kA kD mx my sp s).score = s.score) ∧
    (∀ (w : ℤ) (s : GameState), 1 ≤ w → aliveCount s.zombies = 0 →
      ReachInv (start_wave w s)) ∧
    (∀ (dt : ℝ) (kW kS kA kD : Bool) (mx my : ℝ) (sp : Vec2) (s : GameState),
      ReachInv s → ReachInv (update dt kW kS kA kD mx my sp s)) ∧
    (∀ (dt : ℝ) (kW kS kA kD : Bool) (mx my : ℝ) (sp : Vec2) (s : GameState),
      ReachInv s → (update dt kW kS kA kD mx my sp s).player.hp < s.player.hp →
      KillSlack 1 (update dt kW kS kA kD mx my sp s)) ∧
    (∀ (inputs : List FrameInput) (s : GameState), KillSlack 1 s →
      KillSlack 1 (runFrames inputs s) ∧ (runFrames inputs s).inIntermission = false) :=
  ⟨fun s => ⟨stepCollide_killed_def s, stepCollide_score_def s⟩,
   update_no_bullets,
   reachInv_start_wave,
   reachInv_update,
   contact_death_slack,
   fun inputs s h =>
     ⟨killSlack_runFrames 1 le_rfl inputs s h,
      (killSlack_runFrames 1 le_rfl inputs s h).2.2⟩⟩

-- A concrete in-wave state: one live enemy standing on the player, one
-- projectile in flight far away, one spawn slot already consumed.
noncomputable def cTouch : GameState :=
  { cBase with zombies := [mkZombie ⟨480, 270⟩ 90],
               bullets := [mkBullet ⟨100, 100⟩ ⟨0, 0⟩],
               spawnedThisWave := 1, pendingToSpawn := 7 }

/-- Witness for C10: from the reachable state cTouch (a projectile in
flight, an enemy on the player), the frame update drops hp - a contact
death with bullets airborne - creating the strict kill deficit, which
then persists with the scheduler out of intermission. -/
theorem contact_kill_uncounted_witness :
    ReachInv cTouch ∧
    (update 0 false false false false 480 270 ⟨0, 0⟩ cTouch).player.hp < cTouch.player.hp ∧
    KillSlack 1 (update 0 false false false false 480 270 ⟨0, 0⟩ cTouch) ∧
    KillSlack 1 (runFrames [] (update 0 false false false false 480 270 ⟨0, 0⟩ cTouch)) ∧
    (runFrames [] (update 0 false false false false 480 270 ⟨0, 0⟩ cTouch)).inIntermission
      = false := by
  have hreach : ReachInv cTouch := by
    refine ⟨⟨?_, ?_, ?_⟩, ?_, ?_⟩
    · show (1 : ℤ) + 7 = 8
      norm_num
    · show (0 : ℤ) ≤ 7
      norm_num
    · show (1 : ℤ) ≤ 1
      norm_num
    · show (0 : ℤ) + aliveCount [mkZombie ⟨480, 270⟩ 90] ≤ 1
      rw [show aliveCount [mkZombie ⟨480, 270⟩ 90] = 1 from rfl]
      norm_num
    · intro hh
      rw [show cTouch.inIntermission = false from rfl] at hh
      exact absurd hh (by simp)
  have hA : (stepInput 0 false false false false 480 270 cTouch).queuedShoot = false := rfl
  have hupd : update 0 false false false false 480 270 ⟨0, 0⟩ cTouch =
      stepTime 0 (stepWaveCheck (stepReap (stepCollide (stepMove 0 (stepSpawn 0 ⟨0, 0⟩
        ({ stepInput 0 false false false false 480 270 cTouch with
             queuedShoot := false })))))) := by
    unfold update
    rw [if_pos (show cTouch.running = true from rfl),
        stepIntermission_inactive 0 cTouch rfl, stepShoot_noshoot 480 270 _ hA]
  set A := stepInput 0 false false false false 480 270 cTouch with hAdef
  set B := ({ A with queuedShoot := false } : GameState) with hBdef
  have hBt : B.spawnTimer = 0.25 := by
    rw [hBdef, hAdef]
    rfl
  have hsp : stepSpawn 0 ⟨0, 0⟩ B = { B with spawnTimer := B.spawnTimer - 0 } := by
    have hno : ¬(B.inIntermission = false ∧ 0 < B.pendingToSpawn ∧
        B.spawnTimer - 0 ≤ 0) := by
      intro hc
      have h3 := hc.2.2
      rw [hBt] at h3
      norm_num at h3
    unfold stepSpawn
    rw [if_neg hno]
  rw [hsp] at hupd
  set C := ({ B with spawnTimer := B.spawnTimer - 0 } : GameState) with hCdef
  have hCppos : C.player.pos = ⟨480, 270⟩ := by
    rw [hCdef, hBdef, hAdef]
    rfl
  have hCw : C.width = 960 := by
    rw [hCdef, hBdef, hAdef]
    rfl
  have hCh : C.height = 540 := by
    rw [hCdef, hBdef, hAdef]
    rfl
  have hCz : C.zombies = [mkZombie ⟨480, 270⟩ 90] := by
    rw [hCdef, hBdef, hAdef]
    rfl
  have hCb : C.bullets = [mkBullet ⟨100, 100⟩ ⟨0, 0⟩] := by
    rw [hCdef, hBdef, hAdef]
    rfl
  have hChp : C.player.hp = 3 := by
    rw [hCdef, hBdef, hAdef]
    rfl
  have hCrad : C.player.radius = 14 := by
    rw [hCdef, hBdef, hAdef]
    rfl
  have hclampv : ∀ v : Vec2, clampVec (Vec2.mk 480 270 + v * (0 : ℝ)) 960 540 =
      ⟨480, 270⟩ := by
    intro v
    simp only [Vec2.mul_def, mul_zero, Vec2.add_def, add_zero]
    unfold clampVec clampR
    norm_num
  have hppos5 : (stepMove 0 C).player.pos = ⟨480, 270⟩ := by
    rw [stepMove_ppos_def, hCppos, hCw, hCh]
    exact hclampv _
  have hprad5 : (stepMove 0 C).player.radius = 14 := by
    rw [stepMove_prad]
    exact hCrad
  have hphp5 : (stepMove 0 C).player.hp = 3 := by
    rw [stepMove_hp]
    exact hChp
  have hz5 : (stepMove 0 C).zombies =
      [zombieStep 0 (clampVec (C.player.pos + C.player.vel * (0 : ℝ)) C.width C.height)
        C.width C.height (mkZombie ⟨480, 270⟩ 90)] := by
    rw [stepMove_zombies, hCz]
    rfl
  set Z := zombieStep 0 (clampVec (C.player.pos + C.player.vel * (0 : ℝ)) C.width C.height)
    C.width C.height (mkZombie ⟨480, 270⟩ 90) with hZdef
  have hZalive : Z.alive = true := by
    rw [hZdef]
    rfl
  have hZrad : Z.radius = 14 := by
    rw [hZdef]
    rfl
  have hZpos : Z.pos = ⟨480, 270⟩ := by
    rw [hZdef]
    simp only [zombieStep]
    rw [hCw, hCh, show (mkZombie (Vec2.mk 480 270) 90).pos = Vec2.mk 480 270 from rfl]
    exact hclampv _
  have hb5 : (stepMove 0 C).bullets = [Bullet.update 0 (mkBullet ⟨100, 100⟩ ⟨0, 0⟩)] := by
    rw [stepMove_bullets, hCb]
    rfl
  set Bb := Bullet.update 0 (mkBullet ⟨100, 100⟩ ⟨0, 0⟩) with hBbdef
  have hBbalive : Bb.alive = true := by
    have hlt : ¬((1.2 : ℝ) ≤ 0 + 0) := by norm_num
    rw [hBbdef]
    simp only [Bullet.update, mkBullet]
    rw [if_neg hlt]
  have hBbpos : Bb.pos = ⟨100, 100⟩ := by
    rw [hBbdef]
    simp only [Bullet.update, mkBullet, Vec2.mul_def, Vec2.add_def]
    norm_num
  have hBbrad : Bb.radius = 4 := by
    rw [hBbdef]
    rfl
  have hmiss : ¬circle_hit Z.pos Z.radius Bb.pos Bb.radius := by
    rw [hZpos, hZrad, hBbpos, hBbrad]
    unfold circle_hit
    norm_num
  have hzb : zbPass (stepMove 0 C).score (stepMove 0 C).killedThisWave
      (stepMove 0 C).bullets (stepMove 0 C).zombies =
      ⟨[Z], [Bb], (stepMove 0 C).score, (stepMove 0 C).killedThisWave⟩ := by
    rw [hb5, hz5]
    simp only [zbPass, zbOne]
    rw [if_neg (fun hc => hmiss hc.2.2)]
  have hhit : Z.alive = true ∧ circle_hit Z.pos Z.radius (stepMove 0 C).player.pos
      (stepMove 0 C).player.radius := by
    refine ⟨hZalive, ?_⟩
    rw [hZpos, hZrad, hppos5, hprad5]
    unfold circle_hit
    norm_num
  have hcc : contactCount (stepMove 0 C).player.pos (stepMove 0 C).player.radius [Z] = 1 := by
    simp only [contactCount]
    rw [if_pos hhit]
    norm_num
  have hfhp : (update 0 false false false false 480 270 ⟨0, 0⟩ cTouch).player.hp = 2 := by
    rw [hupd, stepTime_hp, stepWaveCheck_hp, stepReap_hp, stepCollide_hp_def, hzb,
        zpPass_hp_eq,
        show (ZbRes.mk [Z] [Bb] (stepMove 0 C).score
          (stepMove 0 C).killedThisWave).zombies = [Z] from rfl,
        hphp5, hcc]
    norm_num
  have hdrop : (update 0 false false false false 480 270 ⟨0, 0⟩ cTouch).player.hp <
      cTouch.player.hp := by
    rw [hfhp, show cTouch.player.hp = 3 from rfl]
    norm_num
  have hE := contact_kill_uncounted.2.2.2.2.1 0 false false false false 480 270 ⟨0, 0⟩
    cTouch hreach hdrop
  have hF := contact_kill_uncounted.2.2.2.2.2 [] _ hE
  exact ⟨hreach, hdrop, hE, hF.1, hF.2⟩
